import Mathlib

/-! Arduino_Logger: buffered SD-card logger with size-bounded file rotation.

A shallow embedding of `src/logger.hpp` / `src/logger.cpp`.

* C strings and `char` arrays are `List Char`; the terminator is `NUL`.
* The class `logger` is the structure `logger`, one field per data member.
* The SD card (`SdFat`) is the ordered list of entries of the log directory
  `mFilePath`; the order of the list is the order in which `openNextFile`
  enumerates them.
* What the card answers during one call (`isBusy`, whether an `open` yields an
  open handle) is an input of the step, collected in `Response`.
* `Sys` pairs the logger object with the card it is handed by reference.
-/

/-! ## Constants of `logger.hpp` -/

/-- Number of slots of `mBuffer` (`constexpr static uint8_t ARRAY_SIZE = 10`). -/
def ARRAY_SIZE : Nat := 10

/-- Bytes per slot of `mBuffer` (`constexpr static uint8_t STRING_LENGTH = 50`). -/
def STRING_LENGTH : Nat := 50

/-- The string terminator of C. -/
def NUL : Char := Char.ofNat 0

/-- Value of `sizeof(data)` for `const char *data`: the size of a data pointer.
It is 2 on the 8-bit AVR boards and 4 on the 32-bit ones; the only use is the
comparison with `(STRING_LENGTH - 20) * sizeof(char) = 30` in `logData`, which
has the same outcome for both. -/
def sizeofCharPtr : Nat := 2

/-- Size in bytes of the local `char fileName[20]` of `getNextFileIndex`. -/
def FILE_NAME_SIZE : Nat := 20

/-! ## C strings -/

/-- The C string stored at the start of a `char` array: the characters before
the first `NUL`. -/
def cstr (a : List Char) : List Char := a.takeWhile (fun c => c != NUL)

/-- Decimal digits of `n`, most significant first; `fuel` bounds the number of
digits produced. -/
def decimalAux : Nat → Nat → List Char
  | 0, _ => []
  | fuel + 1, n =>
    if n < 10 then [Char.ofNat (48 + n)]
    else decimalAux fuel (n / 10) ++ [Char.ofNat (48 + n % 10)]

/-- Decimal rendering of a natural number (`%lu`, `String(unsigned)`). -/
def decimal (n : Nat) : List Char := decimalAux (n + 1) n

/-- Arduino `String(int32_t)`: decimal rendering with a leading minus sign for
negative values. -/
def stringOfInt (i : Int) : List Char :=
  if i < 0 then '-' :: decimal i.natAbs else decimal i.toNat

/-- Two's-complement wrap of an integer into the range of `int32_t`. -/
def wrapInt32 (z : Int) : Int := (z + 2147483648) % 4294967296 - 2147483648

/-- Value of a string of decimal digits, as accumulated by `atol`. -/
def digitsValue (ds : List Char) : Nat :=
  ds.foldl (fun acc c => acc * 10 + (c.toNat - 48)) 0

/-- Arduino `String::toInt()` on a string made of decimal digits only (the only
strings `getNextFileIndex` builds); the empty string gives 0. The result is a
32-bit `long`; values beyond its range are wrapped. -/
def toInt (ds : List Char) : Int := wrapInt32 (digitsValue ds)

/-- The call `strncpy(dst, src, n)`: the result is the new content of the
`n`-byte destination: the C string of `src` cut to `n` characters, padded with
`NUL` up to `n` bytes. -/
def strncpy (src : List Char) (n : Nat) : List Char :=
  (cstr src).take n ++ List.replicate (n - ((cstr src).take n).length) NUL

/-- The line `snprintf(logString, STRING_LENGTH, "%lu ms ; %s \n", millis(), data)`
produces: at most `STRING_LENGTH - 1` characters (the terminator takes the last
byte). `now` is the value of `millis()`, a 32-bit `unsigned long`. -/
def formatLine (now : Nat) (data : List Char) : List Char :=
  (decimal (now % 4294967296) ++ [' ', 'm', 's', ' ', ';', ' '] ++ cstr data ++ [' ', '\n']).take
    (STRING_LENGTH - 1)

/-- Content of the local array `char logString[STRING_LENGTH] = {0}` after the
`snprintf` of `logData`: the formatted line followed by `NUL` bytes. -/
def logStringOf (now : Nat) (data : List Char) : List Char :=
  formatLine now data ++ List.replicate (STRING_LENGTH - (formatLine now data).length) NUL

/-! ## The SD card -/

/-- One entry of the log directory. -/
structure DirEntry where
  name : List Char
  isDirectory : Bool
  content : List Char
deriving DecidableEq, Repr

/-- The card, seen through the log directory `mFilePath`: its entries in the
order `openNextFile` enumerates them. -/
structure SdFat where
  entries : List DirEntry
deriving DecidableEq, Repr

/-- What the card answers during one call of the logger. -/
structure Response where
  /-- Value of `_SdFat.isBusy()`. -/
  busy : Bool
  /-- Whether `_SdFat.open(fullPath, FILE_WRITE | O_CREAT | O_APPEND)` yields an open file. -/
  openOk : Bool
  /-- Whether `_SdFat.open(mFilePath)` yields an open directory. -/
  dirOk : Bool
deriving DecidableEq, Repr

/-- Content of the file called `n` (empty when there is no such entry). -/
def SdFat.contentOf (sd : SdFat) (n : List Char) : List Char :=
  match sd.entries.find? (fun e => e.name = n) with
  | some e => e.content
  | none => []

/-- Whether the directory has an entry called `n`. -/
def SdFat.hasEntry (sd : SdFat) (n : List Char) : Bool :=
  sd.entries.any (fun e => e.name = n)

/-- The call `_SdFat.open(path, FILE_WRITE | O_CREAT | O_APPEND)` for the file
called `n` of the log directory. `ok` is the card's answer. A successful open of
a missing file creates it, empty, after the existing entries. The result is the
handle (`some n` when open) and the card. -/
def SdFat.openFile (sd : SdFat) (ok : Bool) (n : List Char) : Option (List Char) × SdFat :=
  if ok then
    if sd.hasEntry n then (some n, sd)
    else (some n, { entries := sd.entries ++ [{ name := n, isDirectory := false, content := [] }] })
  else (none, sd)

/-- Value of `mFile.fileSize()`: the length of the open file, 0 for a closed handle. -/
def SdFat.fileSize (sd : SdFat) (f : Option (List Char)) : Nat :=
  match f with
  | none => 0
  | some n => (sd.contentOf n).length

/-- Appends `s` to the entry when it is the one called `n`. -/
def DirEntry.appendIf (n s : List Char) (e : DirEntry) : DirEntry :=
  if e.name = n then { e with content := e.content ++ s } else e

/-- The call `mFile.print(s)`: appends the C string to the open file; a closed
handle writes nothing. -/
def SdFat.print (sd : SdFat) (f : Option (List Char)) (s : List Char) : SdFat :=
  match f with
  | none => sd
  | some n => { entries := sd.entries.map (DirEntry.appendIf n s) }

/-- The entries `openNextFile` yields for the directory handle returned by
`_SdFat.open(mFilePath)`: none when that open failed. -/
def SdFat.listing (sd : SdFat) (dirOk : Bool) : List DirEntry :=
  if dirOk then sd.entries else []

/-! ## The logger object -/

/-- The enumeration `logger::writeStep`. -/
inductive writeStep where
  | CHECK_INDEX
  | WRITE_FILE
  | CHECK_SIZE
deriving DecidableEq, Repr

/-- The enumeration `logger::fileType`. -/
inductive fileType where
  | CSV
  | TXT
deriving DecidableEq, Repr

/-- Data members of `class logger`. `mFile` is the name of the file the handle is
open on, `none` for a closed handle. -/
structure logger where
  mOperational : Bool
  mSetupLogFileDone : Bool
  mFilePath : List Char
  mFileExtension : List Char
  mFileIndex : Int
  mMaxFileSize : Nat
  mFile : Option (List Char)
  mBuffer : List (List Char)
  mArrayMaxPosition : Nat
  mArrayPosition : Nat
  mWriteStep : writeStep
deriving DecidableEq, Repr

/-- The logger together with the card passed to its member functions. -/
structure Sys where
  lg : logger
  sd : SdFat
deriving DecidableEq, Repr

/-- A freshly constructed logger (the default member initialisers), with a
zero-filled buffer as for an object of static storage duration. -/
def logger.init : logger :=
  { mOperational := false
    mSetupLogFileDone := false
    mFilePath := []
    mFileExtension := []
    mFileIndex := 0
    mMaxFileSize := 0
    mFile := none
    mBuffer := List.replicate ARRAY_SIZE (List.replicate STRING_LENGTH NUL)
    mArrayMaxPosition := ARRAY_SIZE - 1
    mArrayPosition := 0
    mWriteStep := writeStep.CHECK_SIZE }

/-- Name, inside the log directory, of the file `fullPath` designates:
`String(mFileIndex) + mFileExtension`. -/
def logger.fileName (self : logger) : List Char :=
  stringOfInt self.mFileIndex ++ self.mFileExtension

/-- The local `fullPath = mFilePath + "/" + String(mFileIndex) + mFileExtension`. -/
def logger.fullPath (self : logger) : List Char :=
  self.mFilePath ++ ['/'] ++ self.fileName

/-! ## Member functions of `logger` -/

/-- The member `checkInit`: sets the operational flag once `setupLogFile` is done. -/
def logger.checkInit (self : logger) : logger :=
  if !self.mSetupLogFileDone then self
  else { self with mOperational := true }

/-- The member `block`: `mOperational = block ? false : true`. -/
def logger.block (self : logger) (block : Bool) : logger :=
  { self with mOperational := if block then false else true }

/-- The member `close`; `busy` is the value of `_SdFat.isBusy()`. The call
`_SdFat.end()` does not touch the directory. -/
def logger.close (self : logger) (busy : Bool) : logger :=
  if !busy && self.mOperational then
    { self with mOperational := false, mArrayPosition := 0, mSetupLogFileDone := false }
  else self

/-- The member `setupLogFile`; `dirExists` and `mkdirOk` are the values of
`_SdFat.exists(mFilePath)` and `_SdFat.mkdir(mFilePath)`. -/
def logger.setupLogFile (self : logger) (filePath : List Char) (ft : fileType)
    (maxFileSize : Nat) (dirExists mkdirOk : Bool) : logger :=
  let s := { self with mFilePath := filePath, mMaxFileSize := maxFileSize }
  if !dirExists && !mkdirOk then { s with mSetupLogFileDone := false }
  else
    { s with
      mSetupLogFileDone := true
      mFileExtension :=
        match ft with
        | fileType.CSV => ['.', 'c', 's', 'v']
        | fileType.TXT => ['.', 't', 'x', 't'] }

/-- The member `clearBuffer`: `memset` of the slots below the cursor, then
`mArrayPosition = 0`. -/
def logger.clearBuffer (self : logger) : logger :=
  { self with
    mBuffer :=
      (self.mBuffer.take self.mArrayPosition).map (fun _ => List.replicate STRING_LENGTH NUL)
        ++ self.mBuffer.drop self.mArrayPosition
    mArrayPosition := 0 }

/-- The member `push_back`: `strncpy` into the slot at the cursor, then
`mArrayPosition++` on a `uint8_t`. -/
def logger.push_back (self : logger) (data : List Char) : logger :=
  if !self.mOperational then self
  else
    { self with
      mBuffer := self.mBuffer.set self.mArrayPosition (strncpy data STRING_LENGTH)
      mArrayPosition := (self.mArrayPosition + 1) % 256 }

/-- The call `entry.getName(fileName, sizeof(fileName))` of the SdFat library,
as a function of the old content `buf` of the array: a name that fits is written
with its terminator over the start of the array and the bytes behind the
terminator keep their old value; for a name that does not fit the library stops
before the last byte and sets `fileName[0] = 0`. -/
def getName (buf : List Char) (name : List Char) : List Char :=
  if name.length + 1 ≤ buf.length then name ++ [NUL] ++ buf.drop (name.length + 1)
  else [NUL] ++ (name.take (buf.length - 1)).drop 1 ++ buf.drop (buf.length - 1)

/-- The `while (true)` loop of `getNextFileIndex` over the entries `openNextFile`
yields: `none` when a sub-directory is met (`return -2`), otherwise the
content of `fileName` when the entries are exhausted. -/
def scanNames : List DirEntry → List Char → Option (List Char)
  | [], fileName => some fileName
  | e :: es, fileName =>
    if e.isDirectory then none else scanNames es (getName fileName e.name)

/-- The member `getNextFileIndex(dir, currentIndex)`: the returned `uint16_t`
and the new value of the reference `currentIndex`. -/
def logger.getNextFileIndex (dir : List DirEntry) (currentIndex : Int) : Nat × Int :=
  match scanNames dir (List.replicate FILE_NAME_SIZE NUL) with
  | none => (65534, currentIndex)
  | some fileName =>
    let charNumbers := fileName.filter Char.isDigit
    (1, wrapInt32 (toInt charNumbers + 1))

/-- The `for` loop of the `WRITE_FILE` case: `mFile.print(mBuffer[i])` for
`i = 0 .. mArrayPosition - 1`. -/
def printSlots (sd : SdFat) (f : Option (List Char)) (slots : List (List Char)) : SdFat :=
  slots.foldl (fun acc slot => acc.print f (cstr slot)) sd

/-- The statement `if (!mFile.isOpen()) mFile = _SdFat.open(fullPath, ...)` at the
head of `writeBufferToFile`: the handle and the card after it. -/
def logger.reopen (self : logger) (_SdFat : SdFat) (r : Response) : Option (List Char) × SdFat :=
  match self.mFile with
  | none => _SdFat.openFile r.openOk self.fileName
  | some f => (some f, _SdFat)

/-- The member `writeBufferToFile`: one step of the flush machine. Returns `ret`
and the logger and card after the call. -/
def logger.writeBufferToFile (self : logger) (_SdFat : SdFat) (r : Response) : Bool × Sys :=
  let mFile := (self.reopen _SdFat r).1
  let sd := (self.reopen _SdFat r).2
  match self.mWriteStep with
  | writeStep.CHECK_SIZE =>
    (false,
      { lg :=
          { self with
            mFile := mFile
            mWriteStep :=
              if sd.fileSize mFile > self.mMaxFileSize then writeStep.CHECK_INDEX
              else writeStep.WRITE_FILE }
        sd := sd })
  | writeStep.CHECK_INDEX =>
    (false,
      { lg :=
          { self with
            mFile := none
            mFileIndex := (logger.getNextFileIndex (sd.listing r.dirOk) self.mFileIndex).2
            mWriteStep := writeStep.CHECK_SIZE }
        sd := sd })
  | writeStep.WRITE_FILE =>
    if !r.busy then
      let sd2 := printSlots sd mFile (self.mBuffer.take self.mArrayPosition)
      match mFile with
      | some _ =>
        (true,
          { lg :=
              { (({ self with mFile := none, mArrayPosition := 0 } : logger).block false).clearBuffer
                with mWriteStep := writeStep.CHECK_SIZE }
            sd := sd2 })
      | none =>
        (false, { lg := { self with mFile := mFile, mWriteStep := writeStep.CHECK_SIZE }, sd := sd2 })
    else (false, { lg := { self with mFile := mFile }, sd := sd })

/-- The member `writeToBuffer`. The first component is the value returned by
`writeBufferToFile` when it was called, `none` when it was not. -/
def logger.writeToBuffer (self : logger) (_sdFat : SdFat) (r : Response) (data : List Char) :
    Option Bool × Sys :=
  let s1 := if self.mArrayPosition < self.mArrayMaxPosition then self.push_back data else self
  if s1.mArrayPosition ≥ s1.mArrayMaxPosition then
    let res := (s1.block true).writeBufferToFile _sdFat r
    (some res.1, res.2)
  else (none, { lg := s1, sd := _sdFat })

/-- The member `logData`. `now` is the value of `millis()`. The first component
is the value returned by `writeBufferToFile` when the call reached it. -/
def logger.logData (self : logger) (_sdFat : SdFat) (r : Response) (now : Nat)
    (data : List Char) : Option Bool × Sys :=
  if sizeofCharPtr > (STRING_LENGTH - 20) * 1 then (none, { lg := self, sd := _sdFat })
  else self.writeToBuffer _sdFat r (logStringOf now data)

/-! ## Runs -/

/-- One `logData` call of a run: the card's answers, the clock and the payload. -/
structure Call where
  resp : Response
  now : Nat
  data : List Char
deriving DecidableEq, Repr

/-- One `logData` call on a system. -/
def Sys.log (w : Sys) (c : Call) : Option Bool × Sys :=
  w.lg.logData w.sd c.resp c.now c.data

/-- A run of consecutive `logData` calls. -/
def Sys.logAll (w : Sys) (cs : List Call) : Sys :=
  cs.foldl (fun acc c => (acc.log c).2) w

/-- One `writeBufferToFile` step on a system. -/
def Sys.flush (w : Sys) (r : Response) : Bool × Sys :=
  w.lg.writeBufferToFile w.sd r

/-- A run of consecutive `writeBufferToFile` steps. -/
def Sys.flushAll (w : Sys) (rs : List Response) : Sys :=
  rs.foldl (fun acc r => (acc.flush r).2) w

/-- The values `writeBufferToFile` returned in the successive calls of a run
(`none` for a call that did not reach it). -/
def Sys.logResults : Sys → List Call → List (Option Bool)
  | _, [] => []
  | w, c :: cs => (w.log c).1 :: Sys.logResults (w.log c).2 cs

/-- The buffer after storing `lines` in consecutive slots from slot `p` on. -/
def storeAll : List (List Char) → Nat → List (List Char) → List (List Char)
  | buf, _, [] => buf
  | buf, p, l :: ls => storeAll (buf.set p l) (p + 1) ls

/-- The array `logString` each call of a run hands to `writeToBuffer`. -/
def logStrings (cs : List Call) : List (List Char) :=
  cs.map (fun c => logStringOf c.now c.data)

/-- The formatted line of each call of a run. -/
def formatLines (cs : List Call) : List (List Char) :=
  cs.map (fun c => formatLine c.now c.data)

/-- Invariant of the flush machine on runs in which every open succeeds: the
handle is closed or open on the file of the current rotation index, and in phase
`WRITE_FILE` it is open on that file and the file is not above the ceiling. -/
def FlushInv (w : Sys) : Prop :=
  (w.lg.mFile = none ∨ w.lg.mFile = some w.lg.fileName)
  ∧ (w.lg.mWriteStep = writeStep.WRITE_FILE →
      w.lg.mFile = some w.lg.fileName
      ∧ (w.sd.contentOf w.lg.fileName).length ≤ w.lg.mMaxFileSize)

/-! ## Concrete systems used to instantiate the theorems -/

/-- A card whose log directory holds the single, empty file `0.csv`. -/
def cardWithEmptyLog : SdFat :=
  { entries := [{ name := ['0', '.', 'c', 's', 'v'], isDirectory := false, content := [] }] }

/-- Answers of an idle card on which every open succeeds. -/
def idle : Response := { busy := false, openOk := true, dirOk := true }

/-- Answers of a busy card. -/
def busyCard : Response := { busy := true, openOk := true, dirOk := true }

/-- A set-up logger after `setupLogFile(_, CSV, 100, _)` and `checkInit()`. -/
def readyLogger : logger :=
  (logger.init.setupLogFile ['l', 'o', 'g'] fileType.CSV 100 true true).checkInit

/-- A logger in the middle of a flush: two records buffered, `0.csv` open, phase
`WRITE_FILE`. -/
def writingLogger : logger :=
  { readyLogger with
    mOperational := false
    mFile := some ['0', '.', 'c', 's', 'v']
    mBuffer := logStringOf 1 ['a'] :: logStringOf 2 ['b'] :: readyLogger.mBuffer.drop 2
    mArrayPosition := 2
    mWriteStep := writeStep.WRITE_FILE }

/-- Nine calls on an idle card, with payloads `a` to `i` at times 1 to 9. -/
def nineCalls : List Call :=
  (List.range 9).map (fun i => { resp := idle, now := i + 1, data := [Char.ofNat (97 + i)] })

/-- A tenth call with payload `j` at time 10. -/
def tenthCall : Call := { resp := idle, now := 10, data := ['j'] }

/-- A card with an empty log directory. -/
def emptyCard : SdFat := { entries := [] }

/-- A payload of 60 characters, twice the bound `STRING_LENGTH - 20 = 30`. -/
def longPayload : List Char := List.replicate 60 'x'

/-- A logger whose buffer has just become full (nine records `a` to `i`, cursor at
`mArrayMaxPosition`, blocked), about to run the flush machine from `CHECK_SIZE`
with rotation index `i`. -/
def fullLogger (i : Int) : logger :=
  { readyLogger with
    mOperational := false
    mFileIndex := i
    mBuffer := logStrings nineCalls ++ readyLogger.mBuffer.drop 9
    mArrayPosition := 9 }

/-- A regular file of the log directory holding `size` bytes. -/
def fileOfSize (name : List Char) (size : Nat) : DirEntry :=
  { name := name, isDirectory := false, content := List.replicate size 'x' }

/-- A card whose log directory holds only `0.csv`, 150 bytes long. -/
def cardOversized : SdFat :=
  { entries := [fileOfSize ['0', '.', 'c', 's', 'v'] 150] }

/-- A card whose log directory enumerates `0.csv`, `1.csv` (150 bytes each) and
then a file `notes.txt`. -/
def cardForeignLast : SdFat :=
  { entries :=
      [fileOfSize ['0', '.', 'c', 's', 'v'] 150, fileOfSize ['1', '.', 'c', 's', 'v'] 150,
        fileOfSize ['n', 'o', 't', 'e', 's', '.', 't', 'x', 't'] 0] }

/-- A card whose log directory enumerates `2.csv` (150 bytes) and then `0.csv`
(empty). -/
def cardLowerLast : SdFat :=
  { entries := [fileOfSize ['2', '.', 'c', 's', 'v'] 150, fileOfSize ['0', '.', 'c', 's', 'v'] 0] }

/-- The system one `logData` call after the buffer became full on an empty card:
blocked, `0.csv` open, phase `WRITE_FILE`. -/
def blockedSys : Sys := (Sys.mk (fullLogger 0) emptyCard).logAll [tenthCall]

/-- A directory entry that is a sub-directory. -/
def subDirectory (name : List Char) : DirEntry :=
  { name := name, isDirectory := true, content := [] }

/-- The set-up logger after `setupLogFile` succeeded and before `checkInit`:
configured, not operational. -/
def configuredLogger : logger :=
  logger.init.setupLogFile ['l', 'o', 'g'] fileType.CSV 100 true true


/-- A call of one of the public member functions that act on the logger's state,
with the card's answers it meets. -/
inductive Op where
  | setupLogFile (filePath : List Char) (ft : fileType) (maxFileSize : Nat)
      (dirExists mkdirOk : Bool)
  | checkInit
  | block (b : Bool)
  | logData (c : Call)
  | close (busy : Bool)
deriving DecidableEq, Repr

/-- Whether the call is `setupLogFile` or `block`, the two public calls other
than `checkInit`, `logData` and `close`. -/
def Op.reconfigures : Op → Bool
  | Op.setupLogFile _ _ _ _ _ => true
  | Op.block _ => true
  | _ => false

/-- The system after one public call. -/
def Sys.apply (w : Sys) : Op → Sys
  | Op.setupLogFile filePath ft maxFileSize dirExists mkdirOk =>
    { w with lg := w.lg.setupLogFile filePath ft maxFileSize dirExists mkdirOk }
  | Op.checkInit => { w with lg := w.lg.checkInit }
  | Op.block b => { w with lg := w.lg.block b }
  | Op.logData c => (w.log c).2
  | Op.close busy => { w with lg := w.lg.close busy }

/-- The system after a sequence of public calls. -/
def Sys.run (w : Sys) (ops : List Op) : Sys :=
  ops.foldl Sys.apply w


/-- Invariant of the buffer under the public calls: the cursor is at most the
full threshold `ARRAY_SIZE - 1`, the buffer has `ARRAY_SIZE` slots and the last
slot holds its initial zero bytes. -/
def CursorInv (lg : logger) : Prop :=
  lg.mArrayPosition ≤ lg.mArrayMaxPosition
  ∧ lg.mArrayMaxPosition = ARRAY_SIZE - 1
  ∧ lg.mBuffer.length = ARRAY_SIZE
  ∧ lg.mBuffer[ARRAY_SIZE - 1]? = some (List.replicate STRING_LENGTH NUL)

/-- Invariant of the blocking discipline under `logData` calls: either the buffer
is filling (cursor below the threshold, operational, phase `CHECK_SIZE`) or it is
full and the logger is blocked. -/
def BlockInv (lg : logger) : Prop :=
  lg.mArrayMaxPosition = ARRAY_SIZE - 1
  ∧ ((lg.mArrayPosition < lg.mArrayMaxPosition ∧ lg.mOperational = true
        ∧ lg.mWriteStep = writeStep.CHECK_SIZE)
      ∨ (lg.mArrayPosition = lg.mArrayMaxPosition ∧ lg.mOperational = false))


/-- The elements of a list whose position is not a multiple of `ARRAY_SIZE`, when
the head of the list has position `pos`. -/
def keptFrom {α : Type} : Nat → List α → List α
  | _, [] => []
  | pos, x :: xs =>
    if pos % ARRAY_SIZE = 0 then keptFrom (pos + 1) xs else x :: keptFrom (pos + 1) xs

/-- The records of a run whose 1-based position is not a multiple of
`ARRAY_SIZE`, in order. -/
def notEveryTenth {α : Type} (cs : List α) : List α := keptFrom 1 cs

/-- A system at the start of a fill cycle: operational, empty buffer of
`ARRAY_SIZE` slots, phase `CHECK_SIZE`, handle closed. -/
def FillStart (w : Sys) : Prop :=
  w.lg.mOperational = true ∧ w.lg.mArrayPosition = 0
  ∧ w.lg.mArrayMaxPosition = ARRAY_SIZE - 1 ∧ w.lg.mBuffer.length = ARRAY_SIZE
  ∧ w.lg.mWriteStep = writeStep.CHECK_SIZE ∧ w.lg.mFile = none


/-- A card after a restart of the logger: the log directory enumerates `0.csv` to
`5.csv`, 150 bytes each, in the order they were created. -/
def cardAfterRestart : SdFat :=
  { entries := (List.range 6).map (fun k => fileOfSize (decimal k ++ ['.', 'c', 's', 'v']) 150) }

/-! ## Lemmas on the card -/

theorem appendIf_name (n s : List Char) (e : DirEntry) : (e.appendIf n s).name = e.name := by
  unfold DirEntry.appendIf; split <;> rfl

theorem appendIf_isDirectory (n s : List Char) (e : DirEntry) :
    (e.appendIf n s).isDirectory = e.isDirectory := by
  unfold DirEntry.appendIf; split <;> rfl

theorem find_map_appendIf (es : List DirEntry) (n f s : List Char) :
    (es.map (DirEntry.appendIf f s)).find? (fun e => e.name = n)
      = (es.find? (fun e => e.name = n)).map (DirEntry.appendIf f s) := by
  induction es with
  | nil => rfl
  | cons e es ih =>
    rw [List.map_cons, List.find?_cons, List.find?_cons, appendIf_name]
    by_cases he : e.name = n
    · simp [he]
    · simp [he, ih]

theorem contentOf_print_same (sd : SdFat) (f s : List Char) (h : sd.hasEntry f = true) :
    (sd.print (some f) s).contentOf f = sd.contentOf f ++ s := by
  simp only [SdFat.print, SdFat.contentOf, find_map_appendIf]
  cases hfind : sd.entries.find? (fun e => e.name = f) with
  | none =>
    exfalso
    rw [List.find?_eq_none] at hfind
    simp only [SdFat.hasEntry, List.any_eq_true] at h
    obtain ⟨e, he, hn⟩ := h
    exact hfind e he hn
  | some e =>
    have hn : e.name = f := by simpa using List.find?_some hfind
    simp [DirEntry.appendIf, hn]

theorem contentOf_print_other (sd : SdFat) (g : Option (List Char)) (n s : List Char)
    (h : g ≠ some n) : (sd.print g s).contentOf n = sd.contentOf n := by
  cases g with
  | none => rfl
  | some f =>
    have hfn : f ≠ n := fun hc => h (by rw [hc])
    simp only [SdFat.print, SdFat.contentOf, find_map_appendIf]
    cases hfind : sd.entries.find? (fun e => e.name = n) with
    | none => rfl
    | some e =>
      have hn : e.name = n := by simpa using List.find?_some hfind
      have hef : e.name ≠ f := fun hc => hfn (hc ▸ hn)
      simp [DirEntry.appendIf, hef]

theorem names_print (sd : SdFat) (g : Option (List Char)) (s : List Char) :
    (sd.print g s).entries.map (fun e => (e.name, e.isDirectory))
      = sd.entries.map (fun e => (e.name, e.isDirectory)) := by
  cases g with
  | none => rfl
  | some f =>
    simp only [SdFat.print, List.map_map]
    apply List.map_congr_left
    intro e _
    simp [appendIf_name, appendIf_isDirectory]

theorem hasEntry_print (sd : SdFat) (g : Option (List Char)) (s n : List Char) :
    (sd.print g s).hasEntry n = sd.hasEntry n := by
  cases g with
  | none => rfl
  | some f =>
    simp only [SdFat.print, SdFat.hasEntry, List.any_map]
    congr 1
    funext e
    simp [appendIf_name]

theorem contentOf_printSlots_same (slots : List (List Char)) (sd : SdFat) (f : List Char)
    (h : sd.hasEntry f = true) :
    (printSlots sd (some f) slots).contentOf f = sd.contentOf f ++ (slots.map cstr).flatten := by
  induction slots generalizing sd with
  | nil => simp [printSlots]
  | cons s ss ih =>
    have h2 : (sd.print (some f) (cstr s)).hasEntry f = true := by
      rw [hasEntry_print]; exact h
    have := ih (sd.print (some f) (cstr s)) h2
    simp only [printSlots, List.foldl_cons] at this ⊢
    rw [this, contentOf_print_same sd f (cstr s) h]
    simp

theorem contentOf_printSlots_other (slots : List (List Char)) (sd : SdFat)
    (g : Option (List Char)) (n : List Char) (h : g ≠ some n) :
    (printSlots sd g slots).contentOf n = sd.contentOf n := by
  induction slots generalizing sd with
  | nil => simp [printSlots]
  | cons s ss ih =>
    have := ih (sd.print g (cstr s))
    simp only [printSlots, List.foldl_cons] at this ⊢
    rw [this, contentOf_print_other sd g n (cstr s) h]

theorem names_printSlots (slots : List (List Char)) (sd : SdFat) (g : Option (List Char)) :
    (printSlots sd g slots).entries.map (fun e => (e.name, e.isDirectory))
      = sd.entries.map (fun e => (e.name, e.isDirectory)) := by
  induction slots generalizing sd with
  | nil => simp [printSlots]
  | cons s ss ih =>
    have := ih (sd.print g (cstr s))
    simp only [printSlots, List.foldl_cons] at this ⊢
    rw [this, names_print]

theorem printSlots_none (slots : List (List Char)) (sd : SdFat) :
    printSlots sd none slots = sd := by
  induction slots generalizing sd with
  | nil => simp [printSlots]
  | cons s ss ih =>
    have := ih sd
    simp only [printSlots, List.foldl_cons, SdFat.print] at this ⊢
    exact this

/-! ## The `WRITE_FILE` step -/

theorem reopen_of_open (lg : logger) (sd : SdFat) (r : Response) (f : List Char)
    (hopen : lg.mFile = some f) : lg.reopen sd r = (some f, sd) := by
  simp [logger.reopen, hopen]

theorem openFile_fst (sd : SdFat) (ok : Bool) (n : List Char) :
    (sd.openFile ok n).1 = if ok then some n else none := by
  unfold SdFat.openFile
  cases ok
  · rfl
  · cases sd.hasEntry n <;> rfl

theorem contentOf_openFile (sd : SdFat) (ok : Bool) (n m : List Char) :
    (sd.openFile ok n).2.contentOf m = sd.contentOf m := by
  unfold SdFat.openFile
  cases ok
  · rfl
  · cases hh : sd.hasEntry n
    · simp only [SdFat.contentOf, List.find?_append, if_true, Bool.false_eq_true, if_false]
      cases hfind : sd.entries.find? (fun e => e.name = m) with
      | some e => simp
      | none =>
        by_cases hnm : n = m <;> simp [List.find?, hnm]
    · simp

theorem contentOf_reopen (lg : logger) (sd : SdFat) (r : Response) (m : List Char) :
    (lg.reopen sd r).2.contentOf m = sd.contentOf m := by
  unfold logger.reopen
  cases lg.mFile with
  | none => exact contentOf_openFile sd r.openOk lg.fileName m
  | some f => rfl

theorem writeBufferToFile_check_size (lg : logger) (sd : SdFat) (r : Response)
    (hphase : lg.mWriteStep = writeStep.CHECK_SIZE) :
    lg.writeBufferToFile sd r
      = (false,
          { lg :=
              { lg with
                mFile := (lg.reopen sd r).1
                mWriteStep :=
                  if (lg.reopen sd r).2.fileSize (lg.reopen sd r).1 > lg.mMaxFileSize then
                    writeStep.CHECK_INDEX
                  else writeStep.WRITE_FILE }
            sd := (lg.reopen sd r).2 }) := by
  simp only [logger.writeBufferToFile, hphase]

theorem writeBufferToFile_check_index (lg : logger) (sd : SdFat) (r : Response)
    (hphase : lg.mWriteStep = writeStep.CHECK_INDEX) :
    lg.writeBufferToFile sd r
      = (false,
          { lg :=
              { lg with
                mFile := none
                mFileIndex :=
                  (logger.getNextFileIndex ((lg.reopen sd r).2.listing r.dirOk) lg.mFileIndex).2
                mWriteStep := writeStep.CHECK_SIZE }
            sd := (lg.reopen sd r).2 }) := by
  simp only [logger.writeBufferToFile, hphase]

theorem writeBufferToFile_write_busy (lg : logger) (sd : SdFat) (r : Response)
    (hphase : lg.mWriteStep = writeStep.WRITE_FILE) (hbusy : r.busy = true) :
    lg.writeBufferToFile sd r
      = (false, { lg := { lg with mFile := (lg.reopen sd r).1 }, sd := (lg.reopen sd r).2 }) := by
  simp [logger.writeBufferToFile, hphase, hbusy]

theorem writeBufferToFile_write_open (lg : logger) (sd : SdFat) (r : Response) (f : List Char)
    (hphase : lg.mWriteStep = writeStep.WRITE_FILE) (hbusy : r.busy = false)
    (hopen : (lg.reopen sd r).1 = some f) :
    lg.writeBufferToFile sd r
      = (true,
          { lg :=
              { (({ lg with mFile := none, mArrayPosition := 0 } : logger).block false).clearBuffer
                with mWriteStep := writeStep.CHECK_SIZE }
            sd := printSlots (lg.reopen sd r).2 (some f) (lg.mBuffer.take lg.mArrayPosition) }) := by
  simp [logger.writeBufferToFile, hphase, hbusy, hopen]

theorem writeBufferToFile_write_closed (lg : logger) (sd : SdFat) (r : Response)
    (hphase : lg.mWriteStep = writeStep.WRITE_FILE) (hbusy : r.busy = false)
    (hopen : (lg.reopen sd r).1 = none) :
    lg.writeBufferToFile sd r
      = (false,
          { lg := { lg with mFile := none, mWriteStep := writeStep.CHECK_SIZE }
            sd := (lg.reopen sd r).2 }) := by
  simp [logger.writeBufferToFile, hphase, hbusy, hopen, printSlots_none]

theorem write_open_effect (lg : logger) (sd : SdFat) (r : Response) (f : List Char)
    (hphase : lg.mWriteStep = writeStep.WRITE_FILE) (hbusy : r.busy = false)
    (hopen : lg.mFile = some f) (hfile : sd.hasEntry f = true) :
    (lg.writeBufferToFile sd r).1 = true
    ∧ (lg.writeBufferToFile sd r).2.sd.contentOf f
        = sd.contentOf f ++ ((lg.mBuffer.take lg.mArrayPosition).map cstr).flatten
    ∧ (∀ n, n ≠ f → (lg.writeBufferToFile sd r).2.sd.contentOf n = sd.contentOf n)
    ∧ (lg.writeBufferToFile sd r).2.lg.mArrayPosition = 0
    ∧ (lg.writeBufferToFile sd r).2.lg.mOperational = true := by
  have hre := reopen_of_open lg sd r f hopen
  rw [writeBufferToFile_write_open lg sd r f hphase hbusy (by rw [hre]), hre]
  exact ⟨rfl, contentOf_printSlots_same _ sd f hfile,
    fun n hn => contentOf_printSlots_other _ sd _ n (fun hc => hn (Option.some.inj hc).symm),
    rfl, rfl⟩

theorem step_true_or_frame (lg : logger) (sd : SdFat) (r : Response) :
    (lg.writeBufferToFile sd r).1 = true
    ∨ ((lg.writeBufferToFile sd r).2.lg.mArrayPosition = lg.mArrayPosition
        ∧ (lg.writeBufferToFile sd r).2.lg.mBuffer = lg.mBuffer) := by
  cases hphase : lg.mWriteStep
  · rw [writeBufferToFile_check_index lg sd r hphase]; exact Or.inr ⟨rfl, rfl⟩
  · cases hb : r.busy
    · cases hf : (lg.reopen sd r).1 with
      | none => rw [writeBufferToFile_write_closed lg sd r hphase hb hf]; exact Or.inr ⟨rfl, rfl⟩
      | some f => rw [writeBufferToFile_write_open lg sd r f hphase hb hf]; exact Or.inl rfl
    · rw [writeBufferToFile_write_busy lg sd r hphase hb]; exact Or.inr ⟨rfl, rfl⟩
  · rw [writeBufferToFile_check_size lg sd r hphase]; exact Or.inr ⟨rfl, rfl⟩

/-- Claim C1: in phase `WRITE_FILE`, with the card not busy and the handle open on
an existing file, one `writeBufferToFile` step returns true, appends to that file
exactly the C strings of slots `0 .. cursor - 1` in order, leaves every other file
and the directory's names as they were, closes the handle and leaves cursor 0,
operational true and phase `CHECK_SIZE`. -/
theorem writeBufferToFile_write_drains (lg : logger) (sd : SdFat) (r : Response)
    (f : List Char) (hphase : lg.mWriteStep = writeStep.WRITE_FILE) (hbusy : r.busy = false)
    (hopen : lg.mFile = some f) (hfile : sd.hasEntry f = true) :
    (lg.writeBufferToFile sd r).1 = true
    ∧ (lg.writeBufferToFile sd r).2.sd.contentOf f
        = sd.contentOf f ++ ((lg.mBuffer.take lg.mArrayPosition).map cstr).flatten
    ∧ (∀ n, n ≠ f → (lg.writeBufferToFile sd r).2.sd.contentOf n = sd.contentOf n)
    ∧ (lg.writeBufferToFile sd r).2.sd.entries.map (fun e => (e.name, e.isDirectory))
        = sd.entries.map (fun e => (e.name, e.isDirectory))
    ∧ (lg.writeBufferToFile sd r).2.lg.mFile = none
    ∧ (lg.writeBufferToFile sd r).2.lg.mArrayPosition = 0
    ∧ (lg.writeBufferToFile sd r).2.lg.mOperational = true
    ∧ (lg.writeBufferToFile sd r).2.lg.mWriteStep = writeStep.CHECK_SIZE := by
  have hre := reopen_of_open lg sd r f hopen
  rw [writeBufferToFile_write_open lg sd r f hphase hbusy (by rw [hre]), hre]
  refine ⟨rfl, contentOf_printSlots_same _ sd f hfile, ?_, names_printSlots _ sd _, rfl, rfl,
    rfl, rfl⟩
  intro n hn
  exact contentOf_printSlots_other _ sd _ n (fun hc => hn (Option.some.inj hc).symm)

/-- Instance of `writeBufferToFile_write_drains`: the flush of two buffered
records into the empty `0.csv`. -/
theorem writeBufferToFile_write_drains_witness :
    writingLogger.mWriteStep = writeStep.WRITE_FILE ∧ idle.busy = false
    ∧ writingLogger.mFile = some ['0', '.', 'c', 's', 'v']
    ∧ cardWithEmptyLog.hasEntry ['0', '.', 'c', 's', 'v'] = true
    ∧ (writingLogger.writeBufferToFile cardWithEmptyLog idle).1 = true
    ∧ (writingLogger.writeBufferToFile cardWithEmptyLog idle).2.sd.contentOf ['0', '.', 'c', 's', 'v']
        = cardWithEmptyLog.contentOf ['0', '.', 'c', 's', 'v']
          ++ ((writingLogger.mBuffer.take writingLogger.mArrayPosition).map cstr).flatten :=
  have h := writeBufferToFile_write_drains writingLogger cardWithEmptyLog idle
    ['0', '.', 'c', 's', 'v'] rfl rfl rfl (by decide)
  ⟨rfl, rfl, rfl, by decide, h.1, h.2.1⟩

/-- Claim C3: a `writeBufferToFile` step that returns false, in any phase and for
any answer of the card, leaves the cursor and every buffer slot as they were; so
the cursor is reset only by a step that returns true. -/
theorem writeBufferToFile_false_keeps_buffer (lg : logger) (sd : SdFat) (r : Response)
    (hret : (lg.writeBufferToFile sd r).1 = false) :
    (lg.writeBufferToFile sd r).2.lg.mArrayPosition = lg.mArrayPosition
    ∧ (lg.writeBufferToFile sd r).2.lg.mBuffer = lg.mBuffer := by
  cases hphase : lg.mWriteStep
  · rw [writeBufferToFile_check_index lg sd r hphase]; exact ⟨rfl, rfl⟩
  · cases hb : r.busy
    · cases hf : (lg.reopen sd r).1 with
      | none => rw [writeBufferToFile_write_closed lg sd r hphase hb hf]; exact ⟨rfl, rfl⟩
      | some f =>
        rw [writeBufferToFile_write_open lg sd r f hphase hb hf] at hret
        exact absurd hret (by simp)
    · rw [writeBufferToFile_write_busy lg sd r hphase hb]; exact ⟨rfl, rfl⟩
  · rw [writeBufferToFile_check_size lg sd r hphase]; exact ⟨rfl, rfl⟩

/-- Instance of `writeBufferToFile_false_keeps_buffer`: a `WRITE_FILE` step on a
busy card. -/
theorem writeBufferToFile_false_keeps_buffer_witness :
    (writingLogger.writeBufferToFile cardWithEmptyLog busyCard).1 = false
    ∧ (writingLogger.writeBufferToFile cardWithEmptyLog busyCard).2.lg.mArrayPosition
        = writingLogger.mArrayPosition
    ∧ (writingLogger.writeBufferToFile cardWithEmptyLog busyCard).2.lg.mBuffer
        = writingLogger.mBuffer :=
  ⟨rfl, writeBufferToFile_false_keeps_buffer writingLogger cardWithEmptyLog busyCard rfl⟩

theorem writeBufferToFile_busy_open (lg : logger) (sd : SdFat) (r : Response) (f : List Char)
    (hphase : lg.mWriteStep = writeStep.WRITE_FILE) (hbusy : r.busy = true)
    (hopen : lg.mFile = some f) : lg.writeBufferToFile sd r = (false, { lg := lg, sd := sd }) := by
  rw [writeBufferToFile_write_busy lg sd r hphase hbusy, reopen_of_open lg sd r f hopen, ← hopen]

theorem flushAll_busy_open (rs : List Response) (w : Sys) (f : List Char)
    (hphase : w.lg.mWriteStep = writeStep.WRITE_FILE) (hopen : w.lg.mFile = some f)
    (hbusy : ∀ r ∈ rs, r.busy = true) : w.flushAll rs = w := by
  induction rs with
  | nil => rfl
  | cons r rs ih =>
    have h1 : (w.flush r).2 = w := by
      unfold Sys.flush
      rw [writeBufferToFile_busy_open w.lg w.sd r f hphase (hbusy r (by simp)) hopen]
    have h2 := ih (fun r hr => hbusy r (by simp [hr]))
    unfold Sys.flushAll at h2 ⊢
    rw [List.foldl_cons, h1]
    exact h2

/-- Claim C4: in phase `WRITE_FILE` a step on a busy card returns false, changes
the content of no file and leaves cursor, slots, rotation index, operational flag
and phase as they were (with a closed handle it still runs the open at the head
of the function); and after any number of busy steps on the open file, one
step on a card that is not busy returns true and appends the buffered records to
that file once, in order, leaving the other files as they were. -/
theorem writeBufferToFile_busy_then_write (lg : logger) (sd : SdFat)
    (hphase : lg.mWriteStep = writeStep.WRITE_FILE) :
    (∀ r : Response, r.busy = true →
        (lg.writeBufferToFile sd r).1 = false
        ∧ (∀ n, (lg.writeBufferToFile sd r).2.sd.contentOf n = sd.contentOf n)
        ∧ (lg.writeBufferToFile sd r).2.lg.mArrayPosition = lg.mArrayPosition
        ∧ (lg.writeBufferToFile sd r).2.lg.mBuffer = lg.mBuffer
        ∧ (lg.writeBufferToFile sd r).2.lg.mFileIndex = lg.mFileIndex
        ∧ (lg.writeBufferToFile sd r).2.lg.mOperational = lg.mOperational
        ∧ (lg.writeBufferToFile sd r).2.lg.mWriteStep = writeStep.WRITE_FILE)
    ∧ (∀ (f : List Char) (rs : List Response) (r : Response),
        lg.mFile = some f → sd.hasEntry f = true → (∀ b ∈ rs, b.busy = true) → r.busy = false →
        (((Sys.mk lg sd).flushAll rs).flush r).1 = true
        ∧ (((Sys.mk lg sd).flushAll rs).flush r).2.sd.contentOf f
            = sd.contentOf f ++ ((lg.mBuffer.take lg.mArrayPosition).map cstr).flatten
        ∧ (∀ n, n ≠ f → (((Sys.mk lg sd).flushAll rs).flush r).2.sd.contentOf n = sd.contentOf n)
        ∧ (((Sys.mk lg sd).flushAll rs).flush r).2.lg.mArrayPosition = 0) := by
  constructor
  · intro r hb
    rw [writeBufferToFile_write_busy lg sd r hphase hb]
    exact ⟨rfl, fun n => contentOf_reopen lg sd r n, rfl, rfl, rfl, rfl, hphase⟩
  · intro f rs r hopen hfile hrs hr
    rw [flushAll_busy_open rs (Sys.mk lg sd) f hphase hopen hrs]
    have h := write_open_effect lg sd r f hphase hr hopen hfile
    exact ⟨h.1, h.2.1, h.2.2.1, h.2.2.2.1⟩

/-- Instance of `writeBufferToFile_busy_then_write`: three busy polls, then the
write of the two buffered records into `0.csv`. -/
theorem writeBufferToFile_busy_then_write_witness :
    writingLogger.mWriteStep = writeStep.WRITE_FILE
    ∧ (writingLogger.writeBufferToFile cardWithEmptyLog busyCard).1 = false
    ∧ ((((Sys.mk writingLogger cardWithEmptyLog).flushAll [busyCard, busyCard, busyCard]).flush
          idle).2.sd.contentOf ['0', '.', 'c', 's', 'v']
        = cardWithEmptyLog.contentOf ['0', '.', 'c', 's', 'v']
          ++ ((writingLogger.mBuffer.take writingLogger.mArrayPosition).map cstr).flatten) :=
  have h := writeBufferToFile_busy_then_write writingLogger cardWithEmptyLog rfl
  ⟨rfl, (h.1 busyCard rfl).1,
    (h.2 ['0', '.', 'c', 's', 'v'] [busyCard, busyCard, busyCard] idle rfl (by decide)
      (by decide) rfl).2.1⟩

/-! ## Formatting of a record -/

theorem digit_char (d : Nat) (h : d < 10) :
    Char.ofNat (48 + d) ≠ NUL ∧ (Char.ofNat (48 + d)).isDigit = true
      ∧ (Char.ofNat (48 + d)).toNat - 48 = d := by
  interval_cases d <;> decide

theorem decimalAux_digits (fuel n : Nat) :
    ∀ c ∈ decimalAux fuel n, c ≠ NUL ∧ c.isDigit = true := by
  induction fuel generalizing n with
  | zero => intro c hc; simp [decimalAux] at hc
  | succ k ih =>
    intro c hc
    unfold decimalAux at hc
    split at hc
    · rename_i hlt
      simp only [List.mem_singleton] at hc
      subst hc
      exact ⟨(digit_char n hlt).1, (digit_char n hlt).2.1⟩
    · rcases List.mem_append.mp hc with h1 | h1
      · exact ih _ c h1
      · simp only [List.mem_singleton] at h1
        subst h1
        have hlt : n % 10 < 10 := Nat.mod_lt _ (by decide)
        exact ⟨(digit_char _ hlt).1, (digit_char _ hlt).2.1⟩

theorem cstr_no_nul (a : List Char) : ∀ c ∈ cstr a, c ≠ NUL := by
  intro c hc
  have := List.mem_takeWhile_imp hc
  simpa using this

theorem cstr_append_nuls (l : List Char) (k : Nat) (h : ∀ c ∈ l, c ≠ NUL) :
    cstr (l ++ List.replicate k NUL) = l := by
  induction l with
  | nil =>
    cases k with
    | zero => rfl
    | succ k => simp [cstr, List.replicate_succ, List.takeWhile]
  | cons x xs ih =>
    have hx : x ≠ NUL := h x (by simp)
    have hxs := ih (fun c hc => h c (by simp [hc]))
    unfold cstr at hxs ⊢
    have hb : (x != NUL) = true := by simpa using hx
    rw [List.cons_append, List.takeWhile_cons, hxs]
    simp [hb]

theorem formatLine_no_nul (now : Nat) (data : List Char) : ∀ c ∈ formatLine now data, c ≠ NUL := by
  intro c hc
  have hmem := List.mem_of_mem_take hc
  simp only [List.mem_append] at hmem
  have hconst : ∀ x ∈ [' ', 'm', 's', ' ', ';', ' ', '\n'], x ≠ NUL := by decide
  rcases hmem with ((h | h) | h) | h
  · exact (decimalAux_digits _ _ c h).1
  · exact hconst c (by simp only [List.mem_cons] at h ⊢; tauto)
  · exact cstr_no_nul data c h
  · exact hconst c (by simp only [List.mem_cons] at h ⊢; tauto)

theorem formatLine_length (now : Nat) (data : List Char) :
    (formatLine now data).length ≤ STRING_LENGTH - 1 := by
  unfold formatLine
  exact (List.length_take_le _ _)

theorem cstr_logStringOf (now : Nat) (data : List Char) :
    cstr (logStringOf now data) = formatLine now data :=
  cstr_append_nuls _ _ (formatLine_no_nul now data)

theorem strncpy_logStringOf (now : Nat) (data : List Char) :
    strncpy (logStringOf now data) STRING_LENGTH = logStringOf now data := by
  have hlen := formatLine_length now data
  unfold strncpy
  rw [cstr_logStringOf]
  have h1 : (formatLine now data).take STRING_LENGTH = formatLine now data :=
    List.take_of_length_le (by simp only [STRING_LENGTH] at hlen ⊢; omega)
  rw [h1]
  rfl

/-! ## `logData` while the buffer fills -/

theorem logData_eq (lg : logger) (sd : SdFat) (r : Response) (now : Nat) (data : List Char) :
    lg.logData sd r now data = lg.writeToBuffer sd r (logStringOf now data) := by
  unfold logger.logData
  rw [if_neg (by decide)]

theorem log_store (w : Sys) (c : Call) (hop : w.lg.mOperational = true)
    (hlt : w.lg.mArrayPosition + 1 < w.lg.mArrayMaxPosition)
    (hmax : w.lg.mArrayMaxPosition ≤ 255) :
    w.log c
      = (none,
          { lg :=
              { w.lg with
                mBuffer := w.lg.mBuffer.set w.lg.mArrayPosition (logStringOf c.now c.data)
                mArrayPosition := w.lg.mArrayPosition + 1 }
            sd := w.sd }) := by
  have h1 : w.lg.mArrayPosition < w.lg.mArrayMaxPosition := by omega
  have h2 : (w.lg.mArrayPosition + 1) % 256 = w.lg.mArrayPosition + 1 :=
    Nat.mod_eq_of_lt (by omega)
  have h3 : ¬ (w.lg.mArrayPosition + 1 ≥ w.lg.mArrayMaxPosition) := by omega
  unfold Sys.log
  rw [logData_eq]
  simp only [logger.writeToBuffer, logger.push_back, h1, hop, if_true, Bool.not_true,
    Bool.false_eq_true, if_false, h2, h3, strncpy_logStringOf]

theorem log_store_last (w : Sys) (c : Call) (hop : w.lg.mOperational = true)
    (hlt : w.lg.mArrayPosition + 1 = w.lg.mArrayMaxPosition)
    (hmax : w.lg.mArrayMaxPosition ≤ 255) :
    w.log c
      = (some (({ w.lg with
                  mBuffer := w.lg.mBuffer.set w.lg.mArrayPosition (logStringOf c.now c.data)
                  mArrayPosition := w.lg.mArrayPosition + 1
                  mOperational := false } : logger).writeBufferToFile w.sd c.resp).1,
         (({ w.lg with
                  mBuffer := w.lg.mBuffer.set w.lg.mArrayPosition (logStringOf c.now c.data)
                  mArrayPosition := w.lg.mArrayPosition + 1
                  mOperational := false } : logger).writeBufferToFile w.sd c.resp).2) := by
  have h1 : w.lg.mArrayPosition < w.lg.mArrayMaxPosition := by omega
  have h2 : (w.lg.mArrayPosition + 1) % 256 = w.lg.mArrayPosition + 1 :=
    Nat.mod_eq_of_lt (by omega)
  have h3 : w.lg.mArrayPosition + 1 ≥ w.lg.mArrayMaxPosition := by omega
  unfold Sys.log
  rw [logData_eq]
  simp only [logger.writeToBuffer, logger.push_back, logger.block, h1, hop, if_true,
    Bool.not_true, Bool.false_eq_true, if_false, h2, h3, strncpy_logStringOf]

theorem log_full (w : Sys) (c : Call) (hfull : w.lg.mArrayMaxPosition ≤ w.lg.mArrayPosition) :
    w.log c
      = (some (({ w.lg with mOperational := false } : logger).writeBufferToFile w.sd c.resp).1,
         (({ w.lg with mOperational := false } : logger).writeBufferToFile w.sd c.resp).2) := by
  have h1 : ¬ (w.lg.mArrayPosition < w.lg.mArrayMaxPosition) := by omega
  have h3 : w.lg.mArrayPosition ≥ w.lg.mArrayMaxPosition := hfull
  unfold Sys.log
  rw [logData_eq]
  simp only [logger.writeToBuffer, logger.block, h1, if_true, if_false, h3]

theorem take_set_succ {α : Type} (l : List α) (p : Nat) (x : α) (h : p < l.length) :
    (l.set p x).take (p + 1) = l.take p ++ [x] := by
  induction l generalizing p with
  | nil => simp at h
  | cons y ys ih =>
    cases p with
    | zero => simp
    | succ q =>
      have hq : q < ys.length := by simpa using h
      simp [ih q hq]

theorem take_storeAll (ls buf : List (List Char)) (p : Nat) (h : p + ls.length ≤ buf.length) :
    (storeAll buf p ls).take (p + ls.length) = buf.take p ++ ls := by
  induction ls generalizing buf p with
  | nil => simp [storeAll]
  | cons l ls ih =>
    simp only [List.length_cons] at h ⊢
    have hp : p < buf.length := by omega
    have h2 : p + 1 + ls.length ≤ (buf.set p l).length := by
      rw [List.length_set]; omega
    have := ih (buf.set p l) (p + 1) h2
    have e : p + (ls.length + 1) = p + 1 + ls.length := by omega
    rw [storeAll, e, this, take_set_succ buf p l hp]
    simp

theorem logAll_cons (w : Sys) (c : Call) (cs : List Call) :
    w.logAll (c :: cs) = (w.log c).2.logAll cs := by
  simp [Sys.logAll]

theorem logAll_append (w : Sys) (cs ds : List Call) :
    w.logAll (cs ++ ds) = (w.logAll cs).logAll ds := by
  simp [Sys.logAll]

theorem logAll_store (cs : List Call) (w : Sys) (hop : w.lg.mOperational = true)
    (hmax : w.lg.mArrayMaxPosition ≤ 255)
    (hk : w.lg.mArrayPosition + cs.length < w.lg.mArrayMaxPosition) :
    w.logAll cs
        = { lg :=
              { w.lg with
                mBuffer := storeAll w.lg.mBuffer w.lg.mArrayPosition (logStrings cs)
                mArrayPosition := w.lg.mArrayPosition + cs.length }
            sd := w.sd }
      ∧ w.logResults cs = List.replicate cs.length none := by
  induction cs generalizing w with
  | nil => exact ⟨rfl, rfl⟩
  | cons c cs ih =>
    have hlen : cs.length + 1 = (c :: cs).length := rfl
    rw [← hlen] at hk
    have hstep := log_store w c hop (by omega) hmax
    have := ih (w.log c).2 (by rw [hstep]; exact hop) (by rw [hstep]; exact hmax)
      (by rw [hstep]; simp only; omega)
    rw [logAll_cons, Sys.logResults, this.1, this.2, hstep]
    refine ⟨?_, by simp [List.replicate_succ]⟩
    simp only [logStrings, List.map_cons, storeAll, List.length_cons, Sys.mk.injEq,
      logger.mk.injEq, true_and, and_true]
    omega

/-- Claim C5, as amended: from an operational logger with cursor 0, every run of
`k` `logData` calls with `k < ARRAY_SIZE - 1` (at most 8) reaches
`writeBufferToFile` in no call, keeps the logger operational and the card
untouched, and ends with cursor `k` and the formatted lines of the `k` records in
slots `0 .. k - 1`, in submission order. -/
theorem logData_below_threshold (lg : logger) (sd : SdFat) (cs : List Call)
    (hop : lg.mOperational = true) (hcur : lg.mArrayPosition = 0)
    (hmax : lg.mArrayMaxPosition = ARRAY_SIZE - 1) (hlen : lg.mBuffer.length = ARRAY_SIZE)
    (hk : cs.length < ARRAY_SIZE - 1) :
    (Sys.mk lg sd).logResults cs = List.replicate cs.length none
    ∧ ((Sys.mk lg sd).logAll cs).lg.mOperational = true
    ∧ ((Sys.mk lg sd).logAll cs).sd = sd
    ∧ ((Sys.mk lg sd).logAll cs).lg.mArrayPosition = cs.length
    ∧ (((Sys.mk lg sd).logAll cs).lg.mBuffer.take cs.length).map cstr = formatLines cs := by
  simp only [ARRAY_SIZE] at hmax hlen hk
  have h := logAll_store cs (Sys.mk lg sd) hop (by simp only [hmax]; omega)
    (by simp only [hmax, hcur]; omega)
  rw [h.1]
  refine ⟨h.2, hop, rfl, by simp [hcur], ?_⟩
  have ht := take_storeAll (logStrings cs) lg.mBuffer 0 (by simp [logStrings, hlen]; omega)
  simp only [hcur]
  simp only [logStrings, List.length_map, Nat.zero_add, List.take_zero, List.nil_append] at ht
  simp only [logStrings, formatLines]
  rw [ht, List.map_map]
  apply List.map_congr_left
  intro c _
  exact cstr_logStringOf c.now c.data

/-- Instance of `logData_below_threshold`: a single call. -/
theorem logData_below_threshold_witness :
    readyLogger.mOperational = true ∧ readyLogger.mArrayPosition = 0
    ∧ (Sys.mk readyLogger emptyCard).logResults [tenthCall] = [none]
    ∧ ((Sys.mk readyLogger emptyCard).logAll [tenthCall]).lg.mArrayPosition = 1 :=
  have h := logData_below_threshold readyLogger emptyCard [tenthCall] rfl rfl rfl rfl
    (by decide)
  ⟨rfl, rfl, h.1, h.2.2.2.1⟩

set_option maxRecDepth 100000 in
/-- Claim C5 fails at `k = 9 ≤ ARRAY_SIZE`: the ninth call of a run from an
operational, empty logger in phase `CHECK_SIZE` reaches `writeBufferToFile`
(which returns false) and leaves the logger blocked. -/
theorem logData_ninth_call_flushes :
    nineCalls.length ≤ ARRAY_SIZE
    ∧ readyLogger.mOperational = true ∧ readyLogger.mArrayPosition = 0
    ∧ readyLogger.mWriteStep = writeStep.CHECK_SIZE
    ∧ (Sys.mk readyLogger emptyCard).logResults nineCalls
        = [none, none, none, none, none, none, none, none, some false]
    ∧ ((Sys.mk readyLogger emptyCard).logAll nineCalls).lg.mOperational = false := by
  decide

theorem logAll_fill (cs : List Call) (w : Sys) (hne : cs ≠ []) (hop : w.lg.mOperational = true)
    (hmax : w.lg.mArrayMaxPosition ≤ 255)
    (hk : w.lg.mArrayPosition + cs.length = w.lg.mArrayMaxPosition) :
    w.logAll cs
        = (({ w.lg with
              mBuffer := storeAll w.lg.mBuffer w.lg.mArrayPosition (logStrings cs)
              mArrayPosition := w.lg.mArrayMaxPosition
              mOperational := false } : logger).writeBufferToFile w.sd (cs.getLast hne).resp).2
      ∧ w.logResults cs
          = List.replicate (cs.length - 1) none
            ++ [some (({ w.lg with
              mBuffer := storeAll w.lg.mBuffer w.lg.mArrayPosition (logStrings cs)
              mArrayPosition := w.lg.mArrayMaxPosition
              mOperational := false } : logger).writeBufferToFile w.sd (cs.getLast hne).resp).1] := by
  induction cs generalizing w with
  | nil => exact absurd rfl hne
  | cons c cs ih =>
    simp only [List.length_cons] at hk
    by_cases hcs : cs = []
    · subst hcs
      have hk2 : w.lg.mArrayPosition + 1 = w.lg.mArrayMaxPosition := by simpa using hk
      have hstep := log_store_last w c hop hk2 hmax
      rw [logAll_cons, Sys.logResults, Sys.logResults, hstep]
      simp only [Sys.logAll, List.foldl_nil, logStrings, List.map_cons, List.map_nil, storeAll,
        List.getLast_singleton, hk2, List.length_cons, List.length_nil, Nat.zero_add,
        Nat.sub_self, List.replicate_zero, List.nil_append, and_self]
    · have hstep := log_store w c hop (by
        have : 0 < cs.length := List.length_pos.mpr hcs
        omega) hmax
      have := ih (w.log c).2 hcs (by rw [hstep]; exact hop) (by rw [hstep]; exact hmax)
        (by rw [hstep]; simp only; omega)
      rw [logAll_cons, Sys.logResults, this.1, this.2, hstep, List.getLast_cons hcs]
      have hpos : 0 < cs.length := List.length_pos.mpr hcs
      have e : (c :: cs).length - 1 = (cs.length - 1) + 1 := by
        simp only [List.length_cons]; omega
      refine ⟨by simp only [logStrings, List.map_cons, storeAll], ?_⟩
      rw [e, List.replicate_succ]
      simp only [logStrings, List.map_cons, storeAll, List.cons_append]

theorem hasEntry_openFile (sd : SdFat) (n : List Char) :
    (sd.openFile true n).2.hasEntry n = true := by
  unfold SdFat.openFile
  cases hh : sd.hasEntry n
  · simp [SdFat.hasEntry]
  · simpa using hh

theorem logResults_append (cs ds : List Call) (w : Sys) :
    w.logResults (cs ++ ds) = w.logResults cs ++ (w.logAll cs).logResults ds := by
  induction cs generalizing w with
  | nil => rfl
  | cons c cs ih => simp [Sys.logResults, logAll_cons, ih]

theorem check_size_opens (lg : logger) (sd : SdFat) (r : Response)
    (hphase : lg.mWriteStep = writeStep.CHECK_SIZE) (hclosed : lg.mFile = none)
    (hok : r.openOk = true) :
    lg.writeBufferToFile sd r
      = (false,
          { lg :=
              { lg with
                mFile := some lg.fileName
                mWriteStep :=
                  if (sd.contentOf lg.fileName).length > lg.mMaxFileSize then writeStep.CHECK_INDEX
                  else writeStep.WRITE_FILE }
            sd := (sd.openFile true lg.fileName).2 }) := by
  have hre : lg.reopen sd r = sd.openFile true lg.fileName := by
    simp [logger.reopen, hclosed, hok]
  have h1 : (sd.openFile true lg.fileName).1 = some lg.fileName := by
    rw [openFile_fst]; rfl
  rw [writeBufferToFile_check_size lg sd r hphase, hre, h1]
  simp only [SdFat.fileSize, contentOf_openFile]

/-- Claim C2, as amended: from a set-up, operational logger with an empty buffer,
phase `CHECK_SIZE`, a closed handle and a target file not above the ceiling, on a
card that is never busy and opens the file: after `ARRAY_SIZE - 1` (nine)
`logData` calls and one more call, the target file has gained exactly the nine
formatted lines of the first nine records, in order, nothing else was written,
the cursor is 0 and the logger is operational. The ninth call performs the
`CHECK_SIZE` step, the tenth the `WRITE_FILE` step; the record of the tenth call
is not written. -/
theorem logData_fill_and_flush (lg : logger) (sd : SdFat) (cs : List Call) (c : Call)
    (hop : lg.mOperational = true) (hcur : lg.mArrayPosition = 0)
    (hmax : lg.mArrayMaxPosition = ARRAY_SIZE - 1) (hlen : lg.mBuffer.length = ARRAY_SIZE)
    (hphase : lg.mWriteStep = writeStep.CHECK_SIZE) (hclosed : lg.mFile = none)
    (hsize : (sd.contentOf lg.fileName).length ≤ lg.mMaxFileSize)
    (hk : cs.length = ARRAY_SIZE - 1)
    (hresp : ∀ x ∈ cs ++ [c], x.resp.busy = false ∧ x.resp.openOk = true) :
    ((Sys.mk lg sd).logAll (cs ++ [c])).sd.contentOf lg.fileName
        = sd.contentOf lg.fileName ++ (formatLines cs).flatten
    ∧ (∀ n, n ≠ lg.fileName →
        ((Sys.mk lg sd).logAll (cs ++ [c])).sd.contentOf n = sd.contentOf n)
    ∧ ((Sys.mk lg sd).logAll (cs ++ [c])).lg.mArrayPosition = 0
    ∧ ((Sys.mk lg sd).logAll (cs ++ [c])).lg.mOperational = true
    ∧ (Sys.mk lg sd).logResults (cs ++ [c])
        = List.replicate (ARRAY_SIZE - 2) none ++ [some false, some true] := by
  simp only [ARRAY_SIZE] at hmax hlen hk ⊢
  have hne : cs ≠ [] := by
    intro h; rw [h] at hk; simp at hk
  obtain ⟨hA, hR⟩ := logAll_fill cs (Sys.mk lg sd) hne hop (by simp only [hmax]; omega)
    (by simp only [hmax, hcur, hk])
  have hlast := hresp (cs.getLast hne) (by simp [List.getLast_mem])
  have hc := hresp c (by simp)
  simp only [hcur] at hA hR
  -- the ninth call: CHECK_SIZE opens the target file
  have h9 := check_size_opens
    ({ lg with
        mBuffer := storeAll lg.mBuffer 0 (logStrings cs)
        mArrayPosition := lg.mArrayMaxPosition
        mOperational := false } : logger) sd (cs.getLast hne).resp hphase hclosed hlast.2
  have hfn : ({ lg with
        mBuffer := storeAll lg.mBuffer 0 (logStrings cs)
        mArrayPosition := lg.mArrayMaxPosition
        mOperational := false } : logger).fileName = lg.fileName := rfl
  rw [hfn] at h9
  simp only [if_neg (Nat.not_lt.mpr hsize)] at h9
  rw [h9] at hA hR
  dsimp only at hA hR
  -- the tenth call: WRITE_FILE drains the nine slots
  have h10 := log_full ((Sys.mk lg sd).logAll cs) c (by rw [hA])
  rw [hA] at h10
  dsimp only at h10
  have hw := write_open_effect
    ({ lg with
        mBuffer := storeAll lg.mBuffer 0 (logStrings cs)
        mArrayPosition := lg.mArrayMaxPosition
        mOperational := false
        mFile := some lg.fileName
        mWriteStep := writeStep.WRITE_FILE } : logger)
    (sd.openFile true lg.fileName).2 c.resp lg.fileName rfl hc.1 rfl
    (hasEntry_openFile sd lg.fileName)
  have htake : (storeAll lg.mBuffer 0 (logStrings cs)).take lg.mArrayMaxPosition
      = logStrings cs := by
    have := take_storeAll (logStrings cs) lg.mBuffer 0 (by simp [logStrings, hlen, hk])
    simpa [logStrings, hk, hmax] using this
  have hlines : (logStrings cs).map cstr = formatLines cs := by
    simp only [logStrings, formatLines, List.map_map]
    apply List.map_congr_left
    intro x _
    exact cstr_logStringOf x.now x.data
  have hall : (Sys.mk lg sd).logAll (cs ++ [c]) = ((Sys.mk lg sd).logAll cs |>.log c).2 := by
    rw [logAll_append]; rfl
  rw [hall, logResults_append, hR, hA, h10]
  simp only [htake, hlines, contentOf_openFile] at hw
  refine ⟨hw.2.1, hw.2.2.1, hw.2.2.2.1, hw.2.2.2.2, ?_⟩
  rw [Sys.logResults, Sys.logResults, h10, hw.1, hk]
  rfl

set_option maxRecDepth 100000 in
/-- Instance of `logData_fill_and_flush`: nine records `a` to `i` and a tenth
call on a fresh card. -/
theorem logData_fill_and_flush_witness :
    readyLogger.mOperational = true ∧ readyLogger.mArrayPosition = 0
    ∧ nineCalls.length = ARRAY_SIZE - 1
    ∧ ((Sys.mk readyLogger emptyCard).logAll (nineCalls ++ [tenthCall])).sd.contentOf
          readyLogger.fileName
        = emptyCard.contentOf readyLogger.fileName ++ (formatLines nineCalls).flatten
    ∧ ((Sys.mk readyLogger emptyCard).logAll (nineCalls ++ [tenthCall])).lg.mArrayPosition = 0 :=
  have h := logData_fill_and_flush readyLogger emptyCard nineCalls tenthCall rfl rfl rfl rfl
    rfl rfl (by decide) rfl (by decide)
  ⟨rfl, rfl, rfl, h.1, h.2.2.1⟩

set_option maxRecDepth 100000 in
/-- Claim C2 fails for `N = ARRAY_SIZE = 10`: after ten `logData` calls on a
set-up, operational, empty logger and an idle card (the ninth call runs the
`CHECK_SIZE` step, the tenth the `WRITE_FILE` step), the file `0.csv` holds the
nine lines of the first nine records and not the ten formatted lines; the cursor
is 0, the logger is operational, and two further flush steps add nothing. -/
theorem logData_ten_appends_write_nine :
    (nineCalls ++ [tenthCall]).length = ARRAY_SIZE
    ∧ (Sys.mk readyLogger emptyCard).logResults (nineCalls ++ [tenthCall])
        = [none, none, none, none, none, none, none, none, some false, some true]
    ∧ ((Sys.mk readyLogger emptyCard).logAll (nineCalls ++ [tenthCall])).sd.contentOf
          ['0', '.', 'c', 's', 'v']
        = (formatLines nineCalls).flatten
    ∧ ((Sys.mk readyLogger emptyCard).logAll (nineCalls ++ [tenthCall])).sd.contentOf
          ['0', '.', 'c', 's', 'v']
        ≠ (formatLines (nineCalls ++ [tenthCall])).flatten
    ∧ ((Sys.mk readyLogger emptyCard).logAll (nineCalls ++ [tenthCall])).lg.mArrayPosition = 0
    ∧ ((Sys.mk readyLogger emptyCard).logAll (nineCalls ++ [tenthCall])).lg.mOperational = true
    ∧ (((Sys.mk readyLogger emptyCard).logAll (nineCalls ++ [tenthCall])).flushAll
          [idle, idle]).sd.contentOf ['0', '.', 'c', 's', 'v']
        = (formatLines nineCalls).flatten := by
  decide

/-! ## The length check of `logData` -/

set_option maxRecDepth 100000 in
/-- Claim C6 evaluated on the code: a payload of 60 bytes, above the bound of 30,
is not rejected. `logData` reaches `writeToBuffer`, the cursor advances to 1 and
slot 0 receives the line cut to 49 characters (42 of the 60 payload bytes). -/
theorem logData_long_payload_is_buffered :
    longPayload.length > STRING_LENGTH - 20
    ∧ readyLogger.mArrayPosition = 0
    ∧ (readyLogger.logData emptyCard idle 5 longPayload).2.lg.mArrayPosition = 1
    ∧ cstr ((readyLogger.logData emptyCard idle 5 longPayload).2.lg.mBuffer.getD 0 [])
        = ['5', ' ', 'm', 's', ' ', ';', ' '] ++ List.replicate 42 'x'
    ∧ (readyLogger.logData emptyCard idle 5 longPayload).2.lg.mBuffer ≠ readyLogger.mBuffer := by
  decide

/-! ## The full buffer: rejection until the write succeeds -/

theorem writeBufferToFile_true (lg : logger) (sd : SdFat) (r : Response)
    (hret : (lg.writeBufferToFile sd r).1 = true) :
    (lg.writeBufferToFile sd r).2.lg
      = { lg with
          mFile := none
          mArrayPosition := 0
          mOperational := true
          mWriteStep := writeStep.CHECK_SIZE } := by
  cases hphase : lg.mWriteStep
  · rw [writeBufferToFile_check_index lg sd r hphase] at hret; exact absurd hret (by simp)
  · cases hb : r.busy
    · cases hf : (lg.reopen sd r).1 with
      | none =>
        rw [writeBufferToFile_write_closed lg sd r hphase hb hf] at hret
        exact absurd hret (by simp)
      | some f =>
        rw [writeBufferToFile_write_open lg sd r f hphase hb hf]
        simp [logger.clearBuffer, logger.block]
    · rw [writeBufferToFile_write_busy lg sd r hphase hb] at hret; exact absurd hret (by simp)
  · rw [writeBufferToFile_check_size lg sd r hphase] at hret; exact absurd hret (by simp)

theorem writeBufferToFile_keeps_max (lg : logger) (sd : SdFat) (r : Response) :
    (lg.writeBufferToFile sd r).2.lg.mArrayMaxPosition = lg.mArrayMaxPosition := by
  cases hphase : lg.mWriteStep
  · rw [writeBufferToFile_check_index lg sd r hphase]
  · cases hb : r.busy
    · cases hf : (lg.reopen sd r).1 with
      | none => rw [writeBufferToFile_write_closed lg sd r hphase hb hf]
      | some f => rw [writeBufferToFile_write_open lg sd r f hphase hb hf]; rfl
    · rw [writeBufferToFile_write_busy lg sd r hphase hb]
  · rw [writeBufferToFile_check_size lg sd r hphase]

theorem logAll_full_rejects (cs : List Call) (w : Sys)
    (hfull : w.lg.mArrayPosition = w.lg.mArrayMaxPosition)
    (hres : ∀ x ∈ w.logResults cs, x ≠ some true) :
    (w.logAll cs).lg.mBuffer = w.lg.mBuffer
      ∧ (w.logAll cs).lg.mArrayPosition = w.lg.mArrayPosition := by
  induction cs generalizing w with
  | nil => exact ⟨rfl, rfl⟩
  | cons c cs ih =>
    have hstep := log_full w c (by omega)
    have hfalse : (({ w.lg with mOperational := false } : logger).writeBufferToFile
        w.sd c.resp).1 = false := by
      have h1 := hres (w.log c).1 (by simp [Sys.logResults])
      rw [hstep] at h1
      cases hb : (({ w.lg with mOperational := false } : logger).writeBufferToFile
        w.sd c.resp).1
      · rfl
      · rw [hb] at h1; exact absurd rfl h1
    have hkeep : (({ w.lg with mOperational := false } : logger).writeBufferToFile
          w.sd c.resp).2.lg.mArrayPosition = w.lg.mArrayPosition
        ∧ (({ w.lg with mOperational := false } : logger).writeBufferToFile
          w.sd c.resp).2.lg.mBuffer = w.lg.mBuffer := by
      rcases step_true_or_frame ({ w.lg with mOperational := false } : logger) w.sd c.resp
        with ht | hk
      · rw [hfalse] at ht; exact absurd ht (by simp)
      · exact hk
    have hmaxk := writeBufferToFile_keeps_max
      ({ w.lg with mOperational := false } : logger) w.sd c.resp
    have hnext := ih (w.log c).2
      (by rw [hstep]; exact hkeep.1.trans (hfull.trans hmaxk.symm))
      (fun x hx => hres x (by simp [Sys.logResults, hx]))
    rw [logAll_cons, hnext.1, hnext.2, hstep]
    exact ⟨hkeep.2, hkeep.1⟩

/-- Claim C7: with the cursor at the full threshold `mArrayMaxPosition`, every
run of `logData` calls in which no flush step returns success leaves the slots and
the cursor as they are, so none of these records is stored; a call whose
`WRITE_FILE` step succeeds leaves cursor 0, operational true and stores nothing,
and the `logData` call after it stores its formatted record in slot 0 and moves
the cursor to 1 without reaching the flush machine. -/
theorem logData_full_round_trip (lg : logger) (sd : SdFat)
    (hfull : lg.mArrayPosition = lg.mArrayMaxPosition)
    (hmax : lg.mArrayMaxPosition = ARRAY_SIZE - 1) (hlen : lg.mBuffer.length = ARRAY_SIZE) :
    (∀ cs : List Call, (∀ x ∈ (Sys.mk lg sd).logResults cs, x ≠ some true) →
        ((Sys.mk lg sd).logAll cs).lg.mBuffer = lg.mBuffer
        ∧ ((Sys.mk lg sd).logAll cs).lg.mArrayPosition = lg.mArrayPosition)
    ∧ (∀ c : Call, ((Sys.mk lg sd).log c).1 = some true →
        ((Sys.mk lg sd).log c).2.lg.mArrayPosition = 0
        ∧ ((Sys.mk lg sd).log c).2.lg.mOperational = true
        ∧ ((Sys.mk lg sd).log c).2.lg.mBuffer = lg.mBuffer
        ∧ ∀ c2 : Call,
            (((Sys.mk lg sd).log c).2.log c2).1 = none
            ∧ (((Sys.mk lg sd).log c).2.log c2).2.lg.mArrayPosition = 1
            ∧ (((Sys.mk lg sd).log c).2.log c2).2.lg.mBuffer
                = lg.mBuffer.set 0 (logStringOf c2.now c2.data)
            ∧ cstr ((((Sys.mk lg sd).log c).2.log c2).2.lg.mBuffer.getD 0 [])
                = formatLine c2.now c2.data) := by
  refine ⟨fun cs hres => logAll_full_rejects cs (Sys.mk lg sd) hfull hres, ?_⟩
  intro c hc
  have hstep := log_full (Sys.mk lg sd) c (by simp only [hfull]; omega)
  rw [hstep] at hc ⊢
  simp only [Option.some.injEq] at hc
  have hpost := writeBufferToFile_true ({ lg with mOperational := false } : logger) sd c.resp hc
  simp only at hpost ⊢
  refine ⟨by rw [hpost], by rw [hpost], by rw [hpost], ?_⟩
  intro c2
  have h2 := log_store
    (({ lg with mOperational := false } : logger).writeBufferToFile sd c.resp).2 c2
    (by rw [hpost]) (by rw [hpost]; simp only [hmax, ARRAY_SIZE]; omega)
    (by rw [hpost]; simp only [hmax, ARRAY_SIZE]; omega)
  rw [h2, hpost]
  refine ⟨rfl, rfl, rfl, ?_⟩
  have hpos : 0 < lg.mBuffer.length := by rw [hlen]; decide
  simp only [List.getD_eq_getElem?_getD, List.getElem?_set_self hpos, Option.getD_some]
  exact cstr_logStringOf c2.now c2.data

set_option maxRecDepth 100000 in
/-- Instance of `logData_full_round_trip`: on the full buffer a first call runs
`CHECK_SIZE` and stores nothing; from the state it leaves, a second call runs
`WRITE_FILE` with success and a third call stores its record in slot 0. -/
theorem logData_full_round_trip_witness :
    (fullLogger 0).mArrayPosition = (fullLogger 0).mArrayMaxPosition
    ∧ (Sys.mk (fullLogger 0) emptyCard).logResults [tenthCall] = [some false]
    ∧ ((Sys.mk (fullLogger 0) emptyCard).logAll [tenthCall]).lg.mBuffer = (fullLogger 0).mBuffer
    ∧ (blockedSys.log tenthCall).1 = some true
    ∧ (blockedSys.log tenthCall).2.lg.mArrayPosition = 0
    ∧ ((blockedSys.log tenthCall).2.log tenthCall).2.lg.mArrayPosition = 1 :=
  have h1 := (logData_full_round_trip (fullLogger 0) emptyCard rfl rfl rfl).1 [tenthCall]
    (by decide)
  have h2 := (logData_full_round_trip blockedSys.lg blockedSys.sd (by decide) (by decide)
    (by decide)).2 tenthCall (by decide)
  ⟨rfl, by decide, h1.1, by decide, h2.1, (h2.2.2.2 tenthCall).2.1⟩

/-! ## Decimal rendering and `getNextFileIndex` -/

theorem digitsValue_append_single (l : List Char) (c : Char) :
    digitsValue (l ++ [c]) = digitsValue l * 10 + (c.toNat - 48) := by
  simp [digitsValue]

theorem digitsValue_decimalAux (fuel n : Nat) (h : n < fuel) :
    digitsValue (decimalAux fuel n) = n := by
  induction fuel generalizing n with
  | zero => omega
  | succ k ih =>
    unfold decimalAux
    split
    · rename_i hlt
      have := (digit_char n hlt).2.2
      simp [digitsValue, this]
    · rename_i hge
      have hlt : n % 10 < 10 := Nat.mod_lt _ (by decide)
      rw [digitsValue_append_single, ih (n / 10) (by omega), (digit_char _ hlt).2.2]
      omega

theorem digitsValue_decimal (n : Nat) : digitsValue (decimal n) = n :=
  digitsValue_decimalAux (n + 1) n (by omega)

theorem filter_isDigit_decimal (n : Nat) : (decimal n).filter Char.isDigit = decimal n :=
  List.filter_eq_self.mpr (fun c hc => (decimalAux_digits _ _ c hc).2)

theorem stringOfInt_natCast (n : Nat) : stringOfInt (n : Int) = decimal n := by
  unfold stringOfInt
  rw [if_neg (by omega)]
  simp

theorem wrapInt32_of_range (z : Int) (h0 : 0 ≤ z) (h1 : z < 2147483648) : wrapInt32 z = z := by
  unfold wrapInt32
  omega

theorem getName_length_fit (buf name : List Char) (h : name.length + 1 ≤ buf.length) :
    (getName buf name).length = buf.length := by
  unfold getName
  rw [if_pos h]
  simp only [List.length_append, List.length_drop, List.length_cons, List.length_nil]
  omega

theorem getName_drop (buf name : List Char) (k : Nat) (hfit : name.length + 1 ≤ buf.length)
    (hk : name.length ≤ k) : (getName buf name).drop (k + 1) = buf.drop (k + 1) := by
  unfold getName
  rw [if_pos hfit]
  have e : k + 1 = (name ++ [NUL]).length + (k - name.length) := by
    simp only [List.length_append, List.length_cons, List.length_nil]; omega
  rw [e, List.drop_append, List.drop_drop, ← e]
  congr 1
  omega

theorem scanNames_append_single (es : List DirEntry) (e : DirEntry) (buf : List Char) :
    scanNames (es ++ [e]) buf
      = (scanNames es buf).bind (fun b => if e.isDirectory then none else some (getName b e.name)) := by
  induction es generalizing buf with
  | nil =>
    simp only [List.nil_append, scanNames, Option.some_bind]
  | cons x xs ih =>
    simp only [List.cons_append, scanNames]
    split
    · rfl
    · exact ih _

theorem scanNames_files (es : List DirEntry) (buf : List Char) (k : Nat)
    (hfiles : ∀ x ∈ es, x.isDirectory = false) (hk : k + 1 ≤ buf.length)
    (hshort : ∀ x ∈ es, x.name.length ≤ k) :
    ∃ b, scanNames es buf = some b ∧ b.length = buf.length ∧ b.drop (k + 1) = buf.drop (k + 1) := by
  induction es generalizing buf with
  | nil => exact ⟨buf, rfl, rfl, rfl⟩
  | cons x xs ih =>
    have hx := hfiles x (by simp)
    have hxl := hshort x (by simp)
    have hlen := getName_length_fit buf x.name (by omega)
    obtain ⟨b, hb, hbl, hbd⟩ := ih (getName buf x.name)
      (fun y hy => hfiles y (by simp [hy])) (by omega) (fun y hy => hshort y (by simp [hy]))
    refine ⟨b, ?_, by rw [hbl, hlen], ?_⟩
    · simp only [scanNames, hx, Bool.false_eq_true, if_false]
      exact hb
    · rw [hbd, getName_drop buf x.name k (by omega) hxl]

theorem scan_last_entry_digits (es : List DirEntry) (e : DirEntry) (n : Nat) (ext : List Char)
    (hfiles : ∀ x ∈ es ++ [e], x.isDirectory = false)
    (hname : e.name = decimal n ++ ext)
    (hext : ∀ c ∈ ext, c.isDigit = false)
    (hfit : e.name.length < FILE_NAME_SIZE)
    (hshort : ∀ x ∈ es, x.name.length ≤ e.name.length) :
    ∃ b, scanNames (es ++ [e]) (List.replicate FILE_NAME_SIZE NUL) = some b
      ∧ b.filter Char.isDigit = decimal n := by
  simp only [FILE_NAME_SIZE] at hfit
  obtain ⟨b, hb, hbl, hbd⟩ := scanNames_files es (List.replicate FILE_NAME_SIZE NUL)
    e.name.length (fun x hx => hfiles x (by simp [hx]))
    (by simp only [FILE_NAME_SIZE, List.length_replicate]; omega) hshort
  have he : e.isDirectory = false := hfiles e (by simp)
  have hscan : scanNames (es ++ [e]) (List.replicate FILE_NAME_SIZE NUL)
      = some (getName b e.name) := by
    rw [scanNames_append_single, hb]
    simp [he]
  have hbl2 : b.length = 20 := by
    rw [hbl]; simp [FILE_NAME_SIZE]
  have hget : getName b e.name
      = e.name ++ [NUL] ++ List.replicate (FILE_NAME_SIZE - (e.name.length + 1)) NUL := by
    unfold getName
    rw [if_pos (by omega), hbd, List.drop_replicate]
  have hnul : NUL.isDigit = false := by decide
  refine ⟨getName b e.name, hscan, ?_⟩
  rw [hget, hname]
  simp only [List.filter_append, filter_isDigit_decimal]
  rw [List.filter_eq_nil_iff.mpr (fun c hc => by simp [hext c hc]),
    List.filter_replicate_of_neg (by simp [hnul])]
  simp [List.filter, hnul]

theorem getNextFileIndex_of_digits (dir : List DirEntry) (cur : Int) (b : List Char) (n : Nat)
    (hscan : scanNames dir (List.replicate FILE_NAME_SIZE NUL) = some b)
    (hdigits : b.filter Char.isDigit = decimal n) (hrange : n + 1 < 2147483648) :
    logger.getNextFileIndex dir cur = (1, (n : Int) + 1) := by
  unfold logger.getNextFileIndex
  rw [hscan]
  simp only [hdigits, toInt, digitsValue_decimal]
  rw [wrapInt32_of_range (n : Int) (by omega) (by omega),
    wrapInt32_of_range ((n : Int) + 1) (by omega) (by omega)]

/-- Claim C10, as amended: for every directory listing without sub-directories
whose last enumerated entry is a file named `<index><extension>` (extension
without digits, name shorter than the 20-byte name array, index + 1 within
`int32_t`) and in which no earlier entry has a longer name, `getNextFileIndex`
returns 1 and sets the rotation index to that index + 1, whatever the other
entries are called. -/
theorem getNextFileIndex_last_entry (es : List DirEntry) (e : DirEntry) (n : Nat)
    (ext : List Char) (cur : Int)
    (hfiles : ∀ x ∈ es ++ [e], x.isDirectory = false)
    (hname : e.name = decimal n ++ ext)
    (hext : ∀ c ∈ ext, c.isDigit = false)
    (hfit : e.name.length < FILE_NAME_SIZE)
    (hshort : ∀ x ∈ es, x.name.length ≤ e.name.length)
    (hrange : n + 1 < 2147483648) :
    logger.getNextFileIndex (es ++ [e]) cur = (1, (n : Int) + 1) := by
  obtain ⟨b, hscan, hdigits⟩ := scan_last_entry_digits es e n ext hfiles hname hext hfit hshort
  have hn : wrapInt32 (n : Int) = (n : Int) := wrapInt32_of_range _ (by omega) (by omega)
  have hn1 : wrapInt32 ((n : Int) + 1) = (n : Int) + 1 :=
    wrapInt32_of_range _ (by omega) (by omega)
  unfold logger.getNextFileIndex
  rw [hscan]
  simp only [hdigits, toInt, digitsValue_decimal, hn, hn1]

/-- Instance of `getNextFileIndex_last_entry`: `0.csv` then `1.csv` gives index 2. -/
theorem getNextFileIndex_last_entry_witness :
    (∀ x ∈ [fileOfSize ['0', '.', 'c', 's', 'v'] 150] ++ [fileOfSize ['1', '.', 'c', 's', 'v'] 0],
        x.isDirectory = false)
    ∧ (fileOfSize ['1', '.', 'c', 's', 'v'] 0).name = decimal 1 ++ ['.', 'c', 's', 'v']
    ∧ logger.getNextFileIndex
        ([fileOfSize ['0', '.', 'c', 's', 'v'] 150] ++ [fileOfSize ['1', '.', 'c', 's', 'v'] 0]) 0
        = (1, ((1 : Nat) : Int) + 1) :=
  ⟨by decide, by decide,
    getNextFileIndex_last_entry [fileOfSize ['0', '.', 'c', 's', 'v'] 150]
      (fileOfSize ['1', '.', 'c', 's', 'v'] 0) 1 ['.', 'c', 's', 'v'] 0 (by decide) (by decide)
      (by decide) (by decide) (by decide) (by decide)⟩

/-- Claim C10 fails: the result is read off the name array after the last entry
enumerated, not off the highest index. With `5.csv` enumerated before `2.csv`
the index becomes 3 although the highest index is 5; the reverse order gives 6; a
file `notes.txt` enumerated last gives 1; and the digit 7 of an earlier, longer
name survives behind the terminator of `2.csv` and gives 28. -/
theorem getNextFileIndex_depends_on_last_entry :
    logger.getNextFileIndex
        [fileOfSize ['5', '.', 'c', 's', 'v'] 0, fileOfSize ['2', '.', 'c', 's', 'v'] 0] 0
      = (1, 3)
    ∧ logger.getNextFileIndex
        [fileOfSize ['2', '.', 'c', 's', 'v'] 0, fileOfSize ['5', '.', 'c', 's', 'v'] 0] 0
      = (1, 6)
    ∧ logger.getNextFileIndex
        [fileOfSize ['5', '.', 'c', 's', 'v'] 0,
          fileOfSize ['n', 'o', 't', 'e', 's', '.', 't', 'x', 't'] 0] 0
      = (1, 1)
    ∧ logger.getNextFileIndex
        [fileOfSize ['1', '2', '3', '4', '5', '6', '7', '.', 'c', 's', 'v'] 0,
          fileOfSize ['2', '.', 'c', 's', 'v'] 0] 0
      = (1, 28) := by
  decide

/-! ## Rotation -/

theorem openFile_existing (sd : SdFat) (n : List Char) (h : sd.hasEntry n = true) :
    sd.openFile true n = (some n, sd) := by
  simp [SdFat.openFile, h]

theorem flushAll_cons (w : Sys) (r : Response) (rs : List Response) :
    w.flushAll (r :: rs) = (w.flush r).2.flushAll rs := by
  simp [Sys.flushAll]

theorem flushAll_nil (w : Sys) : w.flushAll [] = w := rfl

theorem writeBufferToFile_keeps_index (lg : logger) (sd : SdFat) (r : Response)
    (h : lg.mWriteStep ≠ writeStep.CHECK_INDEX) :
    (lg.writeBufferToFile sd r).2.lg.mFileIndex = lg.mFileIndex := by
  cases hphase : lg.mWriteStep
  · exact absurd hphase h
  · cases hb : r.busy
    · cases hf : (lg.reopen sd r).1 with
      | none => rw [writeBufferToFile_write_closed lg sd r hphase hb hf]
      | some f => rw [writeBufferToFile_write_open lg sd r f hphase hb hf]; rfl
    · rw [writeBufferToFile_write_busy lg sd r hphase hb]
  · rw [writeBufferToFile_check_size lg sd r hphase]

theorem hasEntry_of_content (sd : SdFat) (n : List Char) (h : 0 < (sd.contentOf n).length) :
    sd.hasEntry n = true := by
  cases hh : sd.hasEntry n
  · exfalso
    have hnone : sd.entries.find? (fun e => e.name = n) = none := by
      rw [List.find?_eq_none]
      intro x hx hxn
      have : sd.hasEntry n = true := by
        simp only [SdFat.hasEntry, List.any_eq_true]
        exact ⟨x, hx, hxn⟩
      rw [hh] at this
      exact absurd this (by simp)
    simp [SdFat.contentOf, hnone] at h
  · rfl

/-- Claim C8, as amended: from phase `CHECK_SIZE` with a closed handle and the
active file (rotation index `i`) above the ceiling, on a listing of files only
whose last enumerated entry is named `<j><suffix>` with `j ≥ i` (suffix without
digits, name shorter than the 20-byte name array, no earlier entry with a longer
name, `j + 1` within `int32_t`), and with the file `<j+1><ext>` not above the
ceiling: the steps `CHECK_SIZE`, `CHECK_INDEX` set the rotation index to
`j + 1 > i` without touching the card, and the steps `CHECK_SIZE`, `WRITE_FILE`
after them append the buffered records to `<j+1><ext>` and to no other file; the
oversized file is not written. -/
theorem rotation_resolves_greater_index (lg : logger) (sd : SdFat) (es : List DirEntry)
    (e : DirEntry) (j : Nat) (suffix : List Char) (r1 r2 r3 r4 : Response)
    (hphase : lg.mWriteStep = writeStep.CHECK_SIZE) (hclosed : lg.mFile = none)
    (hentries : sd.entries = es ++ [e])
    (hfiles : ∀ x ∈ sd.entries, x.isDirectory = false)
    (hlast : e.name = decimal j ++ suffix)
    (hsuffix : ∀ c ∈ suffix, c.isDigit = false)
    (hge : lg.mFileIndex ≤ (j : Int))
    (hfit : e.name.length < FILE_NAME_SIZE)
    (hshort : ∀ x ∈ es, x.name.length ≤ e.name.length)
    (hrange : j + 1 < 2147483648)
    (hover : (sd.contentOf lg.fileName).length > lg.mMaxFileSize)
    (hnext : (sd.contentOf (decimal (j + 1) ++ lg.mFileExtension)).length ≤ lg.mMaxFileSize)
    (h1 : r1.openOk = true) (h2 : r2.dirOk = true) (h3 : r3.openOk = true)
    (h4 : r4.busy = false) :
    ((Sys.mk lg sd).flushAll [r1, r2]).lg.mFileIndex = (j : Int) + 1
    ∧ lg.mFileIndex < ((Sys.mk lg sd).flushAll [r1, r2]).lg.mFileIndex
    ∧ ((Sys.mk lg sd).flushAll [r1, r2]).sd = sd
    ∧ (((Sys.mk lg sd).flushAll [r1, r2, r3]).flush r4).1 = true
    ∧ ((Sys.mk lg sd).flushAll [r1, r2, r3, r4]).lg.mFileIndex = (j : Int) + 1
    ∧ ((Sys.mk lg sd).flushAll [r1, r2, r3, r4]).sd.contentOf
          (decimal (j + 1) ++ lg.mFileExtension)
        = sd.contentOf (decimal (j + 1) ++ lg.mFileExtension)
          ++ ((lg.mBuffer.take lg.mArrayPosition).map cstr).flatten
    ∧ (∀ m, m ≠ decimal (j + 1) ++ lg.mFileExtension →
        ((Sys.mk lg sd).flushAll [r1, r2, r3, r4]).sd.contentOf m = sd.contentOf m)
    ∧ ((Sys.mk lg sd).flushAll [r1, r2, r3, r4]).sd.contentOf lg.fileName
        = sd.contentOf lg.fileName := by
  have hhas : sd.hasEntry lg.fileName = true := hasEntry_of_content sd lg.fileName (by omega)
  -- step 1: CHECK_SIZE finds the active file above the ceiling
  have s1 := check_size_opens lg sd r1 hphase hclosed h1
  rw [openFile_existing sd lg.fileName hhas, if_pos hover] at s1
  -- step 2: CHECK_INDEX scans the directory
  have s2 := writeBufferToFile_check_index
    ({ lg with mFile := some lg.fileName, mWriteStep := writeStep.CHECK_INDEX } : logger) sd r2 rfl
  rw [reopen_of_open _ sd r2 lg.fileName rfl] at s2
  have hscan : logger.getNextFileIndex (sd.listing r2.dirOk) lg.mFileIndex = (1, (j : Int) + 1) := by
    simp only [SdFat.listing, h2, if_true, hentries]
    obtain ⟨b, hb, hd⟩ := scan_last_entry_digits es e j suffix
      (by rw [← hentries]; exact hfiles) hlast hsuffix hfit hshort
    exact getNextFileIndex_of_digits (es ++ [e]) lg.mFileIndex b j hb hd hrange
  simp only [hscan] at s2
  -- step 3: CHECK_SIZE opens the file of the new index
  have hcast : (j : Int) + 1 = ((j + 1 : Nat) : Int) := by push_cast; rfl
  have hfn2 : ({ lg with
      mFile := none
      mFileIndex := (j : Int) + 1
      mWriteStep := writeStep.CHECK_SIZE } : logger).fileName
        = decimal (j + 1) ++ lg.mFileExtension := by
    simp only [logger.fileName]; rw [hcast, stringOfInt_natCast]
  have s3 := check_size_opens
    ({ lg with
        mFile := none
        mFileIndex := (j : Int) + 1
        mWriteStep := writeStep.CHECK_SIZE } : logger) sd r3 rfl rfl h3
  rw [hfn2] at s3
  simp only [if_neg (Nat.not_lt.mpr hnext)] at s3
  -- step 4: WRITE_FILE drains the buffer into the new file
  have s4 := write_open_effect
    ({ lg with
        mFile := some (decimal (j + 1) ++ lg.mFileExtension)
        mFileIndex := (j : Int) + 1
        mWriteStep := writeStep.WRITE_FILE } : logger)
    (sd.openFile true (decimal (j + 1) ++ lg.mFileExtension)).2 r4
    (decimal (j + 1) ++ lg.mFileExtension) rfl h4 rfl (hasEntry_openFile sd _)
  simp only [contentOf_openFile] at s4
  have hne : lg.fileName ≠ decimal (j + 1) ++ lg.mFileExtension := by
    intro hc
    rw [hc] at hover
    omega
  have e2 : (Sys.mk lg sd).flushAll [r1, r2]
      = { lg :=
            { lg with
              mFile := none
              mFileIndex := (j : Int) + 1
              mWriteStep := writeStep.CHECK_SIZE }
          sd := sd } := by
    rw [flushAll_cons, Sys.flush, s1, flushAll_cons, Sys.flush, s2, flushAll_nil]
  have e3 : (Sys.mk lg sd).flushAll [r1, r2, r3]
      = { lg :=
            { lg with
              mFile := some (decimal (j + 1) ++ lg.mFileExtension)
              mFileIndex := (j : Int) + 1
              mWriteStep := writeStep.WRITE_FILE }
          sd := (sd.openFile true (decimal (j + 1) ++ lg.mFileExtension)).2 } := by
    rw [flushAll_cons, Sys.flush, s1, flushAll_cons, Sys.flush, s2, flushAll_cons, Sys.flush,
      s3, flushAll_nil]
  have e4 : (Sys.mk lg sd).flushAll [r1, r2, r3, r4]
      = (((Sys.mk lg sd).flushAll [r1, r2, r3]).flush r4).2 := by
    simp [Sys.flushAll]
  rw [e4, e2, e3]
  refine ⟨rfl, by simp only; omega, rfl, s4.1, ?_, s4.2.1, s4.2.2.1, s4.2.2.1 _ hne⟩
  exact writeBufferToFile_keeps_index _ _ r4 (fun hc => by simp at hc)

set_option maxRecDepth 100000 in
/-- Instances of `rotation_resolves_greater_index`. The directory holds only
`0.csv` of 150 bytes and the ceiling is 100: the index resolves to 1 and the nine
buffered lines go to `1.csv`. After a restart at index 0 with `0.csv` to `5.csv`
in the directory: the index resolves to 6 and the lines go to `6.csv`. -/
theorem rotation_resolves_greater_index_witness :
    (fullLogger 0).mWriteStep = writeStep.CHECK_SIZE ∧ (fullLogger 0).mFile = none
    ∧ (fullLogger 0).mMaxFileSize = 100
    ∧ (cardOversized.contentOf (fullLogger 0).fileName).length = 150
    ∧ ((Sys.mk (fullLogger 0) cardOversized).flushAll [idle, idle]).lg.mFileIndex
        = ((0 : Nat) : Int) + 1
    ∧ ((Sys.mk (fullLogger 0) cardOversized).flushAll [idle, idle, idle, idle]).sd.contentOf
          (decimal (0 + 1) ++ (fullLogger 0).mFileExtension)
        = cardOversized.contentOf (decimal (0 + 1) ++ (fullLogger 0).mFileExtension)
          ++ (((fullLogger 0).mBuffer.take (fullLogger 0).mArrayPosition).map cstr).flatten
    ∧ (cardAfterRestart.contentOf (fullLogger 0).fileName).length = 150
    ∧ ((Sys.mk (fullLogger 0) cardAfterRestart).flushAll [idle, idle]).lg.mFileIndex
        = ((5 : Nat) : Int) + 1
    ∧ (fullLogger 0).mFileIndex
        < ((Sys.mk (fullLogger 0) cardAfterRestart).flushAll [idle, idle]).lg.mFileIndex
    ∧ ((Sys.mk (fullLogger 0) cardAfterRestart).flushAll [idle, idle, idle, idle]).sd.contentOf
          (decimal (5 + 1) ++ (fullLogger 0).mFileExtension)
        = cardAfterRestart.contentOf (decimal (5 + 1) ++ (fullLogger 0).mFileExtension)
          ++ (((fullLogger 0).mBuffer.take (fullLogger 0).mArrayPosition).map cstr).flatten :=
  have h := rotation_resolves_greater_index (fullLogger 0) cardOversized []
    (fileOfSize ['0', '.', 'c', 's', 'v'] 150) 0 ['.', 'c', 's', 'v'] idle idle idle idle rfl rfl
    rfl (by decide) (by decide) (by decide) (by decide) (by decide) (by decide) (by decide)
    (by decide) (by decide) rfl rfl rfl rfl
  have g := rotation_resolves_greater_index (fullLogger 0) cardAfterRestart
    ((List.range 5).map (fun k => fileOfSize (decimal k ++ ['.', 'c', 's', 'v']) 150))
    (fileOfSize ['5', '.', 'c', 's', 'v'] 150) 5 ['.', 'c', 's', 'v'] idle idle idle idle rfl rfl
    (by decide) (by decide) (by decide) (by decide) (by decide) (by decide) (by decide)
    (by decide) (by decide) (by decide) rfl rfl rfl rfl
  ⟨rfl, rfl, rfl, by decide, h.1, h.2.2.2.2.2.1, by decide, g.1, g.2.1, g.2.2.2.2.2.1⟩

set_option maxRecDepth 100000 in
/-- Claim C8 fails on listings made of files only. With index 1, `1.csv` above the
ceiling and `notes.txt` enumerated last, `CHECK_INDEX` resolves the index to 1
again, the fourth step is a `CHECK_INDEX` and the four steps write nothing. With
index 2, `2.csv` above the ceiling and `0.csv` enumerated last, the index
resolves to 1 and the fourth step writes the records to `1.csv`. -/
theorem rotation_index_not_greater :
    (∀ x ∈ cardForeignLast.entries, x.isDirectory = false)
    ∧ (cardForeignLast.contentOf (fullLogger 1).fileName).length > (fullLogger 1).mMaxFileSize
    ∧ ((Sys.mk (fullLogger 1) cardForeignLast).flushAll [idle, idle]).lg.mFileIndex = 1
    ∧ ((Sys.mk (fullLogger 1) cardForeignLast).flushAll [idle, idle, idle]).lg.mWriteStep
        = writeStep.CHECK_INDEX
    ∧ ((Sys.mk (fullLogger 1) cardForeignLast).flushAll [idle, idle, idle, idle]).sd
        = cardForeignLast
    ∧ (∀ x ∈ cardLowerLast.entries, x.isDirectory = false)
    ∧ (cardLowerLast.contentOf (fullLogger 2).fileName).length > (fullLogger 2).mMaxFileSize
    ∧ ((Sys.mk (fullLogger 2) cardLowerLast).flushAll [idle, idle]).lg.mFileIndex = 1
    ∧ (((Sys.mk (fullLogger 2) cardLowerLast).flushAll [idle, idle, idle]).flush idle).1 = true
    ∧ ((Sys.mk (fullLogger 2) cardLowerLast).flushAll [idle, idle, idle, idle]).sd.contentOf
          ['1', '.', 'c', 's', 'v']
        = (formatLines nineCalls).flatten := by
  decide

/-! ## The size check gates the write -/

theorem flush_keeps_content_unless_write (w : Sys) (r : Response)
    (h : w.lg.mWriteStep ≠ writeStep.WRITE_FILE) (n : List Char) :
    (w.flush r).2.sd.contentOf n = w.sd.contentOf n := by
  unfold Sys.flush
  cases hphase : w.lg.mWriteStep
  · rw [writeBufferToFile_check_index w.lg w.sd r hphase]
    exact contentOf_reopen w.lg w.sd r n
  · exact absurd hphase h
  · rw [writeBufferToFile_check_size w.lg w.sd r hphase]
    exact contentOf_reopen w.lg w.sd r n

theorem flush_write_only_open_file (w : Sys) (r : Response) (f n : List Char)
    (hphase : w.lg.mWriteStep = writeStep.WRITE_FILE) (hopen : w.lg.mFile = some f)
    (hn : n ≠ f) : (w.flush r).2.sd.contentOf n = w.sd.contentOf n := by
  unfold Sys.flush
  have hre := reopen_of_open w.lg w.sd r f hopen
  cases hb : r.busy
  · rw [writeBufferToFile_write_open w.lg w.sd r f hphase hb (by rw [hre]), hre]
    exact contentOf_printSlots_other _ w.sd _ n (fun hc => hn (Option.some.inj hc).symm)
  · rw [writeBufferToFile_write_busy w.lg w.sd r hphase hb, hre]

theorem flushInv_step (w : Sys) (r : Response) (hinv : FlushInv w) (hok : r.openOk = true) :
    FlushInv (w.flush r).2 := by
  obtain ⟨hfile, hwrite⟩ := hinv
  unfold Sys.flush
  cases hphase : w.lg.mWriteStep
  · rw [writeBufferToFile_check_index w.lg w.sd r hphase]
    exact ⟨Or.inl rfl, fun hc => by simp at hc⟩
  · obtain ⟨hopen, hsize⟩ := hwrite hphase
    have hre := reopen_of_open w.lg w.sd r _ hopen
    cases hb : r.busy
    · rw [writeBufferToFile_write_open w.lg w.sd r _ hphase hb (by rw [hre])]
      exact ⟨Or.inl rfl, fun hc => by simp at hc⟩
    · rw [writeBufferToFile_write_busy w.lg w.sd r hphase hb, hre]
      exact ⟨Or.inr rfl, fun _ => ⟨rfl, hsize⟩⟩
  · rcases hfile with hclosed | hopen
    · rw [check_size_opens w.lg w.sd r hphase hclosed hok]
      refine ⟨Or.inr rfl, fun hc => ⟨rfl, ?_⟩⟩
      simp only [logger.fileName, contentOf_openFile] at hc ⊢
      by_contra hgt
      rw [if_pos (by simpa [logger.fileName] using hgt)] at hc
      simp at hc
    · have hre := reopen_of_open w.lg w.sd r _ hopen
      rw [writeBufferToFile_check_size w.lg w.sd r hphase, hre]
      refine ⟨Or.inr rfl, fun hc => ⟨rfl, ?_⟩⟩
      simp only [SdFat.fileSize, logger.fileName] at hc ⊢
      by_contra hgt
      rw [if_pos (by simpa [logger.fileName] using hgt)] at hc
      simp at hc

theorem flushInv_run (rs : List Response) (w : Sys) (hinv : FlushInv w)
    (hok : ∀ r ∈ rs, r.openOk = true) : FlushInv (w.flushAll rs) := by
  induction rs generalizing w with
  | nil => exact hinv
  | cons r rs ih =>
    rw [flushAll_cons]
    exact ih _ (flushInv_step w r hinv (hok r (by simp))) (fun x hx => hok x (by simp [hx]))

/-- Claim C9: a `CHECK_SIZE` step returns false, changes the content of no file,
and moves to `CHECK_INDEX` exactly when the size of the open file is strictly
greater than `mMaxFileSize`, to `WRITE_FILE` otherwise. Hence, in every run of
flush steps that starts in phase `CHECK_SIZE` with the handle closed and in which
every open succeeds: whenever the machine is in phase `WRITE_FILE` the handle is
open on the file of the current rotation index and that file is not above the
ceiling, a step taken there changes no other file, and a step taken in another
phase changes no file at all. -/
theorem check_size_gates_write (lg : logger) (sd : SdFat)
    (hphase : lg.mWriteStep = writeStep.CHECK_SIZE) :
    (∀ r : Response,
        (lg.writeBufferToFile sd r).1 = false
        ∧ (∀ n, (lg.writeBufferToFile sd r).2.sd.contentOf n = sd.contentOf n)
        ∧ ((lg.writeBufferToFile sd r).2.lg.mWriteStep = writeStep.CHECK_INDEX ↔
            (lg.writeBufferToFile sd r).2.sd.fileSize (lg.writeBufferToFile sd r).2.lg.mFile
              > lg.mMaxFileSize)
        ∧ ((lg.writeBufferToFile sd r).2.lg.mWriteStep = writeStep.WRITE_FILE ↔
            (lg.writeBufferToFile sd r).2.sd.fileSize (lg.writeBufferToFile sd r).2.lg.mFile
              ≤ lg.mMaxFileSize))
    ∧ (lg.mFile = none → ∀ rs : List Response, (∀ r ∈ rs, r.openOk = true) →
        (((Sys.mk lg sd).flushAll rs).lg.mWriteStep = writeStep.WRITE_FILE →
          ((Sys.mk lg sd).flushAll rs).lg.mFile = some ((Sys.mk lg sd).flushAll rs).lg.fileName
          ∧ (((Sys.mk lg sd).flushAll rs).sd.contentOf
                ((Sys.mk lg sd).flushAll rs).lg.fileName).length
              ≤ ((Sys.mk lg sd).flushAll rs).lg.mMaxFileSize
          ∧ ∀ (r : Response) (n : List Char), n ≠ ((Sys.mk lg sd).flushAll rs).lg.fileName →
              (((Sys.mk lg sd).flushAll rs).flush r).2.sd.contentOf n
                = ((Sys.mk lg sd).flushAll rs).sd.contentOf n)
        ∧ (((Sys.mk lg sd).flushAll rs).lg.mWriteStep ≠ writeStep.WRITE_FILE →
            ∀ (r : Response) (n : List Char),
              (((Sys.mk lg sd).flushAll rs).flush r).2.sd.contentOf n
                = ((Sys.mk lg sd).flushAll rs).sd.contentOf n)) := by
  constructor
  · intro r
    rw [writeBufferToFile_check_size lg sd r hphase]
    refine ⟨rfl, fun n => contentOf_reopen lg sd r n, ?_, ?_⟩
    · simp only
      by_cases hgt : (lg.reopen sd r).2.fileSize (lg.reopen sd r).1 > lg.mMaxFileSize
      · simp [hgt]
      · simp [hgt]
    · simp only
      by_cases hgt : (lg.reopen sd r).2.fileSize (lg.reopen sd r).1 > lg.mMaxFileSize
      · simp only [if_pos hgt]
        constructor
        · intro hc; simp at hc
        · intro hle; omega
      · simp only [if_neg hgt]
        exact ⟨fun _ => Nat.not_lt.mp hgt, fun _ => trivial⟩
  · intro hclosed rs hok
    have hinv : FlushInv ((Sys.mk lg sd).flushAll rs) :=
      flushInv_run rs (Sys.mk lg sd) ⟨Or.inl hclosed, fun hc => by
        rw [hphase] at hc; simp at hc⟩ hok
    refine ⟨fun hw => ?_, fun hnw r n => flush_keeps_content_unless_write _ r hnw n⟩
    obtain ⟨hopen, hsize⟩ := hinv.2 hw
    exact ⟨hopen, hsize, fun r n hn => flush_write_only_open_file _ r _ n hw hopen hn⟩

set_option maxRecDepth 100000 in
/-- Instance of `check_size_gates_write`: from the full buffer at index 0 on the
card with the oversized `0.csv`, the first step moves to `CHECK_INDEX`, and after
three steps the machine is in `WRITE_FILE` on `1.csv`, which is empty. -/
theorem check_size_gates_write_witness :
    (fullLogger 0).mWriteStep = writeStep.CHECK_SIZE
    ∧ ((fullLogger 0).writeBufferToFile cardOversized idle).1 = false
    ∧ ((fullLogger 0).writeBufferToFile cardOversized idle).2.lg.mWriteStep
        = writeStep.CHECK_INDEX
    ∧ ((Sys.mk (fullLogger 0) cardOversized).flushAll [idle, idle, idle]).lg.mWriteStep
        = writeStep.WRITE_FILE
    ∧ ((Sys.mk (fullLogger 0) cardOversized).flushAll [idle, idle, idle]).lg.mFile
        = some ((Sys.mk (fullLogger 0) cardOversized).flushAll [idle, idle, idle]).lg.fileName
    ∧ (((Sys.mk (fullLogger 0) cardOversized).flushAll [idle, idle, idle]).sd.contentOf
          ((Sys.mk (fullLogger 0) cardOversized).flushAll [idle, idle, idle]).lg.fileName).length
        ≤ ((Sys.mk (fullLogger 0) cardOversized).flushAll [idle, idle, idle]).lg.mMaxFileSize :=
  have h := check_size_gates_write (fullLogger 0) cardOversized rfl
  have hw : ((Sys.mk (fullLogger 0) cardOversized).flushAll [idle, idle, idle]).lg.mWriteStep
      = writeStep.WRITE_FILE := by decide
  have h2 := (h.2 rfl [idle, idle, idle] (by decide)).1 hw
  ⟨rfl, (h.1 idle).1, by decide, hw, h2.1, h2.2.1⟩

/-! ## Sub-directories in the scan -/

theorem scanNames_none_iff (dir : List DirEntry) (buf : List Char) :
    scanNames dir buf = none ↔ ∃ e ∈ dir, e.isDirectory = true := by
  induction dir generalizing buf with
  | nil => simp [scanNames]
  | cons x xs ih =>
    by_cases hx : x.isDirectory = true
    · simp [scanNames, hx]
    · simp only [scanNames, hx, if_false, ih, List.mem_cons, exists_eq_or_imp, false_or,
        Bool.false_eq_true]

/-- Claim C11: when the listing holds a sub-directory entry, `getNextFileIndex`
returns 65534 (the `uint16_t` value of -2) and leaves the rotation index as it
was; when the listing holds files only, the empty listing included, it returns 1;
the two return values differ. -/
theorem getNextFileIndex_subdirectory_aborts (dir : List DirEntry) (cur : Int) :
    ((∃ e ∈ dir, e.isDirectory = true) → logger.getNextFileIndex dir cur = (65534, cur))
    ∧ ((∀ e ∈ dir, e.isDirectory = false) → (logger.getNextFileIndex dir cur).1 = 1)
    ∧ (logger.getNextFileIndex [] cur).1 = 1
    ∧ (65534, cur) ≠ logger.getNextFileIndex [] cur := by
  refine ⟨?_, ?_, by simp [logger.getNextFileIndex, scanNames], by
    simp [logger.getNextFileIndex, scanNames]⟩
  · intro h
    have hs := (scanNames_none_iff dir (List.replicate FILE_NAME_SIZE NUL)).mpr h
    simp [logger.getNextFileIndex, hs]
  · intro h
    cases hs : scanNames dir (List.replicate FILE_NAME_SIZE NUL) with
    | none =>
      obtain ⟨e, he, hd⟩ := (scanNames_none_iff dir _).mp hs
      rw [h e he] at hd
      exact absurd hd (by simp)
    | some b => simp [logger.getNextFileIndex, hs]

/-- Instance of `getNextFileIndex_subdirectory_aborts`: a listing with `0.csv`
and then a sub-directory `old`, scanned at index 7. -/
theorem getNextFileIndex_subdirectory_aborts_witness :
    (∃ e ∈ [fileOfSize ['0', '.', 'c', 's', 'v'] 0, subDirectory ['o', 'l', 'd']],
        e.isDirectory = true)
    ∧ logger.getNextFileIndex
        [fileOfSize ['0', '.', 'c', 's', 'v'] 0, subDirectory ['o', 'l', 'd']] 7 = (65534, 7)
    ∧ (∀ e ∈ [fileOfSize ['0', '.', 'c', 's', 'v'] 0], e.isDirectory = false)
    ∧ (logger.getNextFileIndex [fileOfSize ['0', '.', 'c', 's', 'v'] 0] 7).1 = 1 :=
  have h := getNextFileIndex_subdirectory_aborts
    [fileOfSize ['0', '.', 'c', 's', 'v'] 0, subDirectory ['o', 'l', 'd']] 7
  have h2 := getNextFileIndex_subdirectory_aborts [fileOfSize ['0', '.', 'c', 's', 'v'] 0] 7
  ⟨by decide, h.1 (by decide), by decide, h2.2.1 (by decide)⟩

/-! ## Clearing of the slots after a write -/

set_option maxRecDepth 100000 in
/-- Claim C12 evaluated on the code: in phase `WRITE_FILE` with cursor 2, the card
not busy and `0.csv` open, the step returns true and resets the cursor, but
`clearBuffer` runs after `mArrayPosition = 0`, so no slot is zeroed: slots 0 and 1
still hold the two written lines. -/
theorem write_step_leaves_slots_uncleared :
    writingLogger.mWriteStep = writeStep.WRITE_FILE ∧ writingLogger.mArrayPosition = 2
    ∧ writingLogger.mFile = some ['0', '.', 'c', 's', 'v'] ∧ idle.busy = false
    ∧ (writingLogger.writeBufferToFile cardWithEmptyLog idle).1 = true
    ∧ (writingLogger.writeBufferToFile cardWithEmptyLog idle).2.lg.mArrayPosition = 0
    ∧ (writingLogger.writeBufferToFile cardWithEmptyLog idle).2.lg.mBuffer = writingLogger.mBuffer
    ∧ cstr ((writingLogger.writeBufferToFile cardWithEmptyLog idle).2.lg.mBuffer.getD 0 [])
        = formatLine 1 ['a']
    ∧ cstr ((writingLogger.writeBufferToFile cardWithEmptyLog idle).2.lg.mBuffer.getD 1 [])
        = formatLine 2 ['b']
    ∧ (writingLogger.writeBufferToFile cardWithEmptyLog idle).2.lg.mBuffer.getD 0 []
        ≠ List.replicate STRING_LENGTH NUL := by
  decide

/-! ## `close` -/

/-- Claim C13, as amended: a `close` call made while the card is not busy and the
logger is operational sets operational false, cursor 0 and setup-complete false
and leaves every other member, the write phase included, as it was; a `close`
call made while the card is busy or the logger is not operational leaves the
whole object unchanged. -/
theorem close_resets_when_operational (lg : logger) (busy : Bool) :
    (busy = false ∧ lg.mOperational = true →
        (lg.close busy).mOperational = false
        ∧ (lg.close busy).mArrayPosition = 0
        ∧ (lg.close busy).mSetupLogFileDone = false
        ∧ (lg.close busy).mWriteStep = lg.mWriteStep
        ∧ (lg.close busy).mBuffer = lg.mBuffer
        ∧ (lg.close busy).mFile = lg.mFile
        ∧ (lg.close busy).mFileIndex = lg.mFileIndex)
    ∧ (busy = true ∨ lg.mOperational = false → lg.close busy = lg) := by
  constructor
  · rintro ⟨hb, hop⟩
    simp [logger.close, hb, hop]
  · rintro (hb | hop)
    · simp [logger.close, hb]
    · simp [logger.close, hop]

/-- Instance of `close_resets_when_operational`: closing the operational logger
on an idle card, and closing the blocked logger. -/
theorem close_resets_when_operational_witness :
    readyLogger.mOperational = true
    ∧ (readyLogger.close false).mOperational = false
    ∧ (readyLogger.close false).mArrayPosition = 0
    ∧ (fullLogger 0).mOperational = false
    ∧ (fullLogger 0).close false = fullLogger 0 :=
  have h := close_resets_when_operational readyLogger false
  have h2 := close_resets_when_operational (fullLogger 0) false
  ⟨rfl, (h.1 ⟨rfl, rfl⟩).1, (h.1 ⟨rfl, rfl⟩).2.1, rfl, h2.2 (Or.inr rfl)⟩

set_option maxRecDepth 100000 in
/-- Claim C13 fails on a card that is not busy. Closing the blocked logger (buffer
full, not operational) leaves the cursor at 9 and setup-complete true; and after
nine appends and a `checkInit`, closing the operational logger leaves the write
phase at `WRITE_FILE`. -/
theorem close_keeps_phase_and_blocked_state :
    ((fullLogger 0).close false).mArrayPosition = 9
    ∧ ((fullLogger 0).close false).mSetupLogFileDone = true
    ∧ (((Sys.mk readyLogger emptyCard).logAll nineCalls).lg.checkInit).mOperational = true
    ∧ ((((Sys.mk readyLogger emptyCard).logAll nineCalls).lg.checkInit).close false).mWriteStep
        = writeStep.WRITE_FILE
    ∧ ((((Sys.mk readyLogger emptyCard).logAll nineCalls).lg.checkInit).close false).mWriteStep
        ≠ writeStep.CHECK_SIZE := by
  decide

/-! ## The operational flag -/

theorem log_blocked_noop (w : Sys) (c : Call) (hop : w.lg.mOperational = false)
    (hcur : w.lg.mArrayPosition < w.lg.mArrayMaxPosition) : w.log c = (none, w) := by
  have h3 : ¬ (w.lg.mArrayPosition ≥ w.lg.mArrayMaxPosition) := by omega
  unfold Sys.log
  rw [logData_eq]
  simp only [logger.writeToBuffer, logger.push_back, hcur, hop, if_true, Bool.not_false, h3,
    if_false]

theorem run_cons (w : Sys) (o : Op) (ops : List Op) :
    w.run (o :: ops) = (w.apply o).run ops := by
  simp [Sys.run]

theorem unconfigured_apply (w : Sys) (o : Op) (ho : o.reconfigures = false)
    (hdone : w.lg.mSetupLogFileDone = false) (hop : w.lg.mOperational = false)
    (hcur : w.lg.mArrayPosition < w.lg.mArrayMaxPosition) : w.apply o = w := by
  cases o with
  | setupLogFile p ft m e k => simp [Op.reconfigures] at ho
  | block b => simp [Op.reconfigures] at ho
  | checkInit => simp [Sys.apply, logger.checkInit, hdone]
  | logData c => simp [Sys.apply, log_blocked_noop w c hop hcur]
  | close busy => simp [Sys.apply, logger.close, hop]

theorem unconfigured_run (ops : List Op) (w : Sys) (hops : ∀ o ∈ ops, o.reconfigures = false)
    (hdone : w.lg.mSetupLogFileDone = false) (hop : w.lg.mOperational = false)
    (hcur : w.lg.mArrayPosition < w.lg.mArrayMaxPosition) : w.run ops = w := by
  induction ops with
  | nil => rfl
  | cons o ops ih =>
    rw [run_cons, unconfigured_apply w o (hops o (by simp)) hdone hop hcur]
    exact ih (fun x hx => hops x (by simp [hx]))

/-- Claim C15, as amended: on a logger whose operational flag is false and whose
cursor is below the full threshold, a `logData` call does not reach
`writeBufferToFile` and leaves the whole logger (cursor, slots, rotation index,
write phase) and the card as they were. -/
theorem logData_not_operational_noop (lg : logger) (sd : SdFat) (c : Call)
    (hop : lg.mOperational = false) (hcur : lg.mArrayPosition < lg.mArrayMaxPosition) :
    ((Sys.mk lg sd).log c).1 = none
    ∧ ((Sys.mk lg sd).log c).2.lg = lg
    ∧ ((Sys.mk lg sd).log c).2.sd = sd := by
  rw [log_blocked_noop (Sys.mk lg sd) c hop hcur]
  exact ⟨rfl, rfl, rfl⟩

/-- Instance of `logData_not_operational_noop`: an append on a freshly
constructed logger. -/
theorem logData_not_operational_noop_witness :
    logger.init.mOperational = false
    ∧ logger.init.mArrayPosition < logger.init.mArrayMaxPosition
    ∧ ((Sys.mk logger.init emptyCard).log tenthCall).2.lg = logger.init
    ∧ ((Sys.mk logger.init emptyCard).log tenthCall).2.sd = emptyCard :=
  have h := logData_not_operational_noop logger.init emptyCard tenthCall rfl (by decide)
  ⟨rfl, by decide, h.2.1, h.2.2⟩

set_option maxRecDepth 100000 in
/-- Claim C15 fails for a blocked logger with a full buffer: its operational flag
is false, and a `logData` call runs a flush step, which creates `0.csv` on the
card and moves the write phase to `WRITE_FILE`; the next call writes the nine
buffered lines and resets the cursor. -/
theorem logData_blocked_full_steps_flush :
    (fullLogger 0).mOperational = false
    ∧ ((Sys.mk (fullLogger 0) emptyCard).log tenthCall).1 = some false
    ∧ ((Sys.mk (fullLogger 0) emptyCard).log tenthCall).2.sd ≠ emptyCard
    ∧ ((Sys.mk (fullLogger 0) emptyCard).log tenthCall).2.lg.mWriteStep = writeStep.WRITE_FILE
    ∧ (fullLogger 0).mWriteStep = writeStep.CHECK_SIZE
    ∧ blockedSys.lg.mOperational = false
    ∧ (blockedSys.log tenthCall).2.lg.mArrayPosition = 0
    ∧ (blockedSys.log tenthCall).2.sd.contentOf ['0', '.', 'c', 's', 'v']
        = (formatLines nineCalls).flatten := by
  decide

theorem setupLogFile_failure_fields (lg : logger) (filePath : List Char) (ft : fileType)
    (maxFileSize : Nat) :
    (lg.setupLogFile filePath ft maxFileSize false false).mSetupLogFileDone = false
    ∧ (lg.setupLogFile filePath ft maxFileSize false false).mOperational = lg.mOperational
    ∧ (lg.setupLogFile filePath ft maxFileSize false false).mArrayPosition = lg.mArrayPosition
    ∧ (lg.setupLogFile filePath ft maxFileSize false false).mArrayMaxPosition
        = lg.mArrayMaxPosition
    ∧ (lg.setupLogFile filePath ft maxFileSize false false).mBuffer = lg.mBuffer := by
  simp [logger.setupLogFile]

/-- Claim C14, as amended: a `setupLogFile` call in which the directory does not
exist and cannot be created leaves setup-complete false and the operational flag
at the value it had. On a logger that was not operational, with the cursor below
the full threshold, the logger is then not operational, and every sequence of
`checkInit`, `logData` and `close` calls leaves the logger and the card exactly
as they are: no append is stored until `setupLogFile` is run again. -/
theorem setupLogFile_failure_stays_down (lg : logger) (sd : SdFat) (filePath : List Char)
    (ft : fileType) (maxFileSize : Nat) (ops : List Op)
    (hop : lg.mOperational = false) (hcur : lg.mArrayPosition < lg.mArrayMaxPosition)
    (hops : ∀ o ∈ ops, o.reconfigures = false) :
    (lg.setupLogFile filePath ft maxFileSize false false).mSetupLogFileDone = false
    ∧ (lg.setupLogFile filePath ft maxFileSize false false).mOperational = false
    ∧ (Sys.mk (lg.setupLogFile filePath ft maxFileSize false false) sd).run ops
        = Sys.mk (lg.setupLogFile filePath ft maxFileSize false false) sd
    ∧ (∀ l : logger,
        (l.setupLogFile filePath ft maxFileSize false false).mSetupLogFileDone = false
        ∧ (l.setupLogFile filePath ft maxFileSize false false).mOperational = l.mOperational) := by
  obtain ⟨hd, ho, hc, hm, _⟩ := setupLogFile_failure_fields lg filePath ft maxFileSize
  refine ⟨hd, by rw [ho, hop], ?_, fun l => ?_⟩
  · exact unconfigured_run ops _ hops hd (by rw [ho, hop]) (by rw [hc, hm]; exact hcur)
  · exact ⟨(setupLogFile_failure_fields l filePath ft maxFileSize).1,
      (setupLogFile_failure_fields l filePath ft maxFileSize).2.1⟩

/-- Instance of `setupLogFile_failure_stays_down`: a failed set-up of a fresh
logger, then `checkInit` and an append. -/
theorem setupLogFile_failure_stays_down_witness :
    logger.init.mOperational = false
    ∧ logger.init.mArrayPosition < logger.init.mArrayMaxPosition
    ∧ (∀ o ∈ [Op.checkInit, Op.logData tenthCall], o.reconfigures = false)
    ∧ (logger.init.setupLogFile ['l', 'o', 'g'] fileType.CSV 100 false false).mOperational = false
    ∧ (Sys.mk (logger.init.setupLogFile ['l', 'o', 'g'] fileType.CSV 100 false false)
          emptyCard).run [Op.checkInit, Op.logData tenthCall]
        = Sys.mk (logger.init.setupLogFile ['l', 'o', 'g'] fileType.CSV 100 false false)
            emptyCard :=
  have h := setupLogFile_failure_stays_down logger.init emptyCard ['l', 'o', 'g'] fileType.CSV
    100 [Op.checkInit, Op.logData tenthCall] rfl (by decide) (by decide)
  ⟨rfl, by decide, by decide, h.2.1, h.2.2.1⟩

set_option maxRecDepth 100000 in
/-- Claim C14 fails on a logger that is operational: after a `setupLogFile` call
whose `mkdir` fails, setup-complete is false but the operational flag is still
true, and the next append is stored. -/
theorem setupLogFile_failure_keeps_operational :
    readyLogger.mOperational = true
    ∧ (readyLogger.setupLogFile ['n', 'e', 'w'] fileType.CSV 100 false false).mSetupLogFileDone
        = false
    ∧ (readyLogger.setupLogFile ['n', 'e', 'w'] fileType.CSV 100 false false).mOperational = true
    ∧ ((Sys.mk (readyLogger.setupLogFile ['n', 'e', 'w'] fileType.CSV 100 false false)
          emptyCard).log tenthCall).2.lg.mArrayPosition = 1
    ∧ cstr (((Sys.mk (readyLogger.setupLogFile ['n', 'e', 'w'] fileType.CSV 100 false false)
          emptyCard).log tenthCall).2.lg.mBuffer.getD 0 [])
        = formatLine 10 ['j'] := by
  decide

/-- Claim C16, as amended: `checkInit` sets the operational flag when
setup-complete is set and otherwise changes nothing. From the freshly constructed
logger, and from the state left by a `close` call that took effect (card not busy,
logger operational), every sequence of `checkInit`, `logData` and `close` calls
leaves the logger and the card exactly as they are: the logger does not become
operational and no record is buffered before a `setupLogFile` call. -/
theorem checkInit_needs_setup (lg : logger) (sd : SdFat) (ops : List Op)
    (hop : lg.mOperational = true) (hmax : lg.mArrayMaxPosition = ARRAY_SIZE - 1)
    (hops : ∀ o ∈ ops, o.reconfigures = false) :
    (∀ l : logger,
        (l.mSetupLogFileDone = true → l.checkInit = { l with mOperational := true })
        ∧ (l.mSetupLogFileDone = false → l.checkInit = l))
    ∧ (Sys.mk logger.init sd).run ops = Sys.mk logger.init sd
    ∧ (Sys.mk (lg.close false) sd).run ops = Sys.mk (lg.close false) sd
    ∧ ((Sys.mk (lg.close false) sd).run ops).lg.mOperational = false
    ∧ ((Sys.mk (lg.close false) sd).run ops).lg.mArrayPosition = 0 := by
  have hclose : lg.close false
      = { lg with mOperational := false, mArrayPosition := 0, mSetupLogFileDone := false } := by
    simp [logger.close, hop]
  have hrun : (Sys.mk (lg.close false) sd).run ops = Sys.mk (lg.close false) sd := by
    apply unconfigured_run ops _ hops
    · rw [hclose]
    · rw [hclose]
    · rw [hclose]; simp only [hmax, ARRAY_SIZE]; omega
  refine ⟨fun l => ⟨fun h => by simp [logger.checkInit, h], fun h => by
    simp [logger.checkInit, h]⟩, ?_, hrun, ?_, ?_⟩
  · exact unconfigured_run ops _ hops rfl rfl
      (show logger.init.mArrayPosition < logger.init.mArrayMaxPosition by decide)
  · rw [hrun, hclose]
  · rw [hrun, hclose]

/-- Instance of `checkInit_needs_setup`: the operational logger is closed, then
`checkInit`, an append and a second `close` follow. -/
theorem checkInit_needs_setup_witness :
    readyLogger.mOperational = true ∧ readyLogger.mArrayMaxPosition = ARRAY_SIZE - 1
    ∧ (∀ o ∈ [Op.checkInit, Op.logData tenthCall, Op.close false], o.reconfigures = false)
    ∧ (Sys.mk (readyLogger.close false) emptyCard).run
          [Op.checkInit, Op.logData tenthCall, Op.close false]
        = Sys.mk (readyLogger.close false) emptyCard
    ∧ ((Sys.mk (readyLogger.close false) emptyCard).run
          [Op.checkInit, Op.logData tenthCall, Op.close false]).lg.mOperational = false :=
  have h := checkInit_needs_setup readyLogger emptyCard
    [Op.checkInit, Op.logData tenthCall, Op.close false] rfl rfl (by decide)
  ⟨rfl, rfl, by decide, h.2.2.1, h.2.2.2.1⟩

set_option maxRecDepth 100000 in
/-- Claim C16 fails for the state left by a `close` call that did not take
effect: on the configured logger that is not yet operational, `close` on an idle
card changes nothing, and `checkInit` then makes the logger operational and the
next append is buffered, without any further `setupLogFile` call. The same
happens when `close` is called on the blocked logger with a full buffer. -/
theorem close_without_effect_keeps_setup :
    configuredLogger.mOperational = false
    ∧ configuredLogger.close false = configuredLogger
    ∧ ((Sys.mk (configuredLogger.close false) emptyCard).run [Op.checkInit]).lg.mOperational
        = true
    ∧ ((Sys.mk (configuredLogger.close false) emptyCard).run
          [Op.checkInit, Op.logData tenthCall]).lg.mArrayPosition = 1
    ∧ (fullLogger 0).close false = fullLogger 0
    ∧ ((Sys.mk ((fullLogger 0).close false) emptyCard).run [Op.checkInit]).lg.mOperational
        = true := by
  decide

/-! ## Invariants of the cursor and of the blocking discipline -/

theorem step_false_frame (lg : logger) (sd : SdFat) (r : Response)
    (hret : (lg.writeBufferToFile sd r).1 = false) :
    (lg.writeBufferToFile sd r).2.lg.mArrayPosition = lg.mArrayPosition
    ∧ (lg.writeBufferToFile sd r).2.lg.mBuffer = lg.mBuffer
    ∧ (lg.writeBufferToFile sd r).2.lg.mOperational = lg.mOperational := by
  cases hphase : lg.mWriteStep
  · rw [writeBufferToFile_check_index lg sd r hphase]; exact ⟨rfl, rfl, rfl⟩
  · cases hb : r.busy
    · cases hf : (lg.reopen sd r).1 with
      | none => rw [writeBufferToFile_write_closed lg sd r hphase hb hf]; exact ⟨rfl, rfl, rfl⟩
      | some f =>
        rw [writeBufferToFile_write_open lg sd r f hphase hb hf] at hret
        exact absurd hret (by simp)
    · rw [writeBufferToFile_write_busy lg sd r hphase hb]; exact ⟨rfl, rfl, rfl⟩
  · rw [writeBufferToFile_check_size lg sd r hphase]; exact ⟨rfl, rfl, rfl⟩

theorem step_true_in_write (lg : logger) (sd : SdFat) (r : Response)
    (hret : (lg.writeBufferToFile sd r).1 = true) :
    lg.mWriteStep = writeStep.WRITE_FILE ∧ r.busy = false := by
  cases hphase : lg.mWriteStep
  · rw [writeBufferToFile_check_index lg sd r hphase] at hret; exact absurd hret (by simp)
  · cases hb : r.busy
    · exact ⟨rfl, rfl⟩
    · rw [writeBufferToFile_write_busy lg sd r hphase hb] at hret; exact absurd hret (by simp)
  · rw [writeBufferToFile_check_size lg sd r hphase] at hret; exact absurd hret (by simp)

theorem flush_frame (lg : logger) (sd : SdFat) (r : Response) :
    (lg.writeBufferToFile sd r).2.lg.mBuffer = lg.mBuffer
    ∧ (lg.writeBufferToFile sd r).2.lg.mArrayMaxPosition = lg.mArrayMaxPosition
    ∧ ((lg.writeBufferToFile sd r).2.lg.mArrayPosition = lg.mArrayPosition
        ∨ (lg.writeBufferToFile sd r).2.lg.mArrayPosition = 0) := by
  refine ⟨?_, writeBufferToFile_keeps_max lg sd r, ?_⟩
  · cases hret : (lg.writeBufferToFile sd r).1
    · exact (step_false_frame lg sd r hret).2.1
    · rw [writeBufferToFile_true lg sd r hret]
  · cases hret : (lg.writeBufferToFile sd r).1
    · exact Or.inl (step_false_frame lg sd r hret).1
    · rw [writeBufferToFile_true lg sd r hret]; exact Or.inr rfl

theorem cursorInv_flush (lg : logger) (sd : SdFat) (r : Response) (h : CursorInv lg) :
    CursorInv (lg.writeBufferToFile sd r).2.lg := by
  obtain ⟨hb, hm, hc⟩ := flush_frame lg sd r
  obtain ⟨h1, h2, h3, h4⟩ := h
  refine ⟨?_, by rw [hm, h2], by rw [hb, h3], by rw [hb, h4]⟩
  rw [hm]
  rcases hc with hc | hc <;> rw [hc]
  · exact h1
  · exact Nat.zero_le _

theorem cursorInv_log (w : Sys) (c : Call) (h : CursorInv w.lg) : CursorInv (w.log c).2.lg := by
  have h' := h
  obtain ⟨h1, h2, h3, h4⟩ := h
  simp only [ARRAY_SIZE] at h2 h3 h4
  by_cases hlt : w.lg.mArrayPosition < w.lg.mArrayMaxPosition
  · cases hop : w.lg.mOperational
    · rw [log_blocked_noop w c hop hlt]; exact h'
    · have hset : ∀ x : List Char,
          (w.lg.mBuffer.set w.lg.mArrayPosition x)[ARRAY_SIZE - 1]?
            = some (List.replicate STRING_LENGTH NUL) := by
        intro x
        simp only [ARRAY_SIZE]
        rw [List.getElem?_set_ne (by omega)]
        exact h4
      by_cases hnext : w.lg.mArrayPosition + 1 < w.lg.mArrayMaxPosition
      · rw [log_store w c hop hnext (by omega)]
        exact ⟨by simp only; omega, by simp only [ARRAY_SIZE]; exact h2, by
          simp only [List.length_set, ARRAY_SIZE]; exact h3, hset _⟩
      · rw [log_store_last w c hop (by omega) (by omega)]
        apply cursorInv_flush
        exact ⟨by simp only; omega, by simp only [ARRAY_SIZE]; exact h2, by
          simp only [List.length_set, ARRAY_SIZE]; exact h3, hset _⟩
  · rw [log_full w c (by omega)]
    apply cursorInv_flush
    exact h'

theorem cursorInv_apply (w : Sys) (o : Op) (h : CursorInv w.lg) : CursorInv (w.apply o).lg := by
  cases o with
  | logData c => exact cursorInv_log w c h
  | checkInit =>
    obtain ⟨h1, h2, h3, h4⟩ := h
    simp only [Sys.apply, logger.checkInit]
    split <;> exact ⟨h1, h2, h3, h4⟩
  | block b => exact h
  | close busy =>
    obtain ⟨h1, h2, h3, h4⟩ := h
    simp only [Sys.apply, logger.close]
    split
    · exact ⟨Nat.zero_le _, h2, h3, h4⟩
    · exact ⟨h1, h2, h3, h4⟩
  | setupLogFile p ft m e k =>
    obtain ⟨h1, h2, h3, h4⟩ := h
    simp only [Sys.apply, logger.setupLogFile]
    split <;> exact ⟨h1, h2, h3, h4⟩

theorem cursorInv_run (ops : List Op) (w : Sys) (h : CursorInv w.lg) :
    CursorInv (w.run ops).lg := by
  induction ops generalizing w with
  | nil => exact h
  | cons o ops ih =>
    rw [run_cons]
    exact ih _ (cursorInv_apply w o h)

/-- Claim C17: in every state reached from the freshly constructed logger by a
sequence of `setupLogFile`, `checkInit`, `block`, `logData` and `close` calls, on
any card and for any answers of the card, the cursor is at most
`mArrayMaxPosition = ARRAY_SIZE - 1`, hence below the number of slots, the buffer
has `ARRAY_SIZE` slots, and the last slot still holds its initial zero bytes: no
call writes it. -/
theorem cursor_bounded_last_slot_unused (sd : SdFat) (ops : List Op) :
    ((Sys.mk logger.init sd).run ops).lg.mArrayPosition
        ≤ ((Sys.mk logger.init sd).run ops).lg.mArrayMaxPosition
    ∧ ((Sys.mk logger.init sd).run ops).lg.mArrayMaxPosition = ARRAY_SIZE - 1
    ∧ ((Sys.mk logger.init sd).run ops).lg.mArrayPosition
        < ((Sys.mk logger.init sd).run ops).lg.mBuffer.length
    ∧ ((Sys.mk logger.init sd).run ops).lg.mBuffer.length = ARRAY_SIZE
    ∧ ((Sys.mk logger.init sd).run ops).lg.mBuffer[ARRAY_SIZE - 1]?
        = logger.init.mBuffer[ARRAY_SIZE - 1]? := by
  have hinit0 : CursorInv logger.init := by
    refine ⟨by decide, rfl, by decide, by decide⟩
  have hinit : CursorInv (Sys.mk logger.init sd).lg := hinit0
  obtain ⟨h1, h2, h3, h4⟩ := cursorInv_run ops (Sys.mk logger.init sd) hinit
  refine ⟨h1, h2, ?_, h3, ?_⟩
  · rw [h3]
    simp only [h2, ARRAY_SIZE] at h1 ⊢
    omega
  · rw [h4]
    decide

theorem blockInv_flush_blocked (lg : logger) (sd : SdFat) (r : Response)
    (hmax : lg.mArrayMaxPosition = ARRAY_SIZE - 1)
    (hfull : lg.mArrayPosition = lg.mArrayMaxPosition) (hop : lg.mOperational = false) :
    BlockInv (lg.writeBufferToFile sd r).2.lg := by
  have hm := writeBufferToFile_keeps_max lg sd r
  cases hret : (lg.writeBufferToFile sd r).1
  · obtain ⟨hc, _, ho⟩ := step_false_frame lg sd r hret
    exact ⟨by rw [hm, hmax], Or.inr ⟨by rw [hc, hm, hfull], by rw [ho, hop]⟩⟩
  · have hpost := writeBufferToFile_true lg sd r hret
    refine ⟨by rw [hm, hmax], Or.inl ?_⟩
    rw [hpost]
    exact ⟨by simp only [hmax, ARRAY_SIZE]; omega, rfl, rfl⟩

theorem blockInv_log (w : Sys) (c : Call) (h : BlockInv w.lg) : BlockInv (w.log c).2.lg := by
  obtain ⟨hmax, hcase⟩ := h
  have hmax9 : w.lg.mArrayMaxPosition = 9 := by rw [hmax]; rfl
  rcases hcase with ⟨hlt, hop, hphase⟩ | ⟨hfull, hop⟩
  · by_cases hnext : w.lg.mArrayPosition + 1 < w.lg.mArrayMaxPosition
    · rw [log_store w c hop hnext (by omega)]
      exact ⟨hmax, Or.inl ⟨hnext, hop, hphase⟩⟩
    · rw [log_store_last w c hop (by omega) (by omega)]
      apply blockInv_flush_blocked
      · exact hmax
      · simp only; omega
      · rfl
  · rw [log_full w c (by omega)]
    apply blockInv_flush_blocked
    · exact hmax
    · exact hfull
    · rfl

theorem blockInv_logAll (cs : List Call) (w : Sys) (h : BlockInv w.lg) :
    BlockInv (w.logAll cs).lg := by
  induction cs generalizing w with
  | nil => exact h
  | cons c cs ih =>
    rw [logAll_cons]
    exact ih _ (blockInv_log w c h)

/-- Claim C18: in every state reached from an operational logger with an empty
buffer in phase `CHECK_SIZE` by `logData` calls, for any answers of the card:
when the cursor is at the full threshold the operational flag is false; when the
write phase is not `CHECK_SIZE` the cursor is at the threshold and the flag is
false; and a call that turns the flag from false to true is a call whose flush
step ran in phase `WRITE_FILE` and returned success. -/
theorem blocking_discipline (lg : logger) (sd : SdFat) (cs : List Call)
    (hop : lg.mOperational = true) (hcur : lg.mArrayPosition = 0)
    (hphase : lg.mWriteStep = writeStep.CHECK_SIZE)
    (hmax : lg.mArrayMaxPosition = ARRAY_SIZE - 1) :
    (((Sys.mk lg sd).logAll cs).lg.mArrayPosition
          = ((Sys.mk lg sd).logAll cs).lg.mArrayMaxPosition →
        ((Sys.mk lg sd).logAll cs).lg.mOperational = false)
    ∧ (((Sys.mk lg sd).logAll cs).lg.mWriteStep ≠ writeStep.CHECK_SIZE →
        ((Sys.mk lg sd).logAll cs).lg.mArrayPosition
            = ((Sys.mk lg sd).logAll cs).lg.mArrayMaxPosition
        ∧ ((Sys.mk lg sd).logAll cs).lg.mOperational = false)
    ∧ (∀ c : Call, ((Sys.mk lg sd).logAll cs).lg.mOperational = false →
        (((Sys.mk lg sd).logAll cs).log c).2.lg.mOperational = true →
        (((Sys.mk lg sd).logAll cs).log c).1 = some true
        ∧ ((Sys.mk lg sd).logAll cs).lg.mWriteStep = writeStep.WRITE_FILE) := by
  have hinit : BlockInv (Sys.mk lg sd).lg :=
    ⟨hmax, Or.inl ⟨by simp only [hcur, hmax, ARRAY_SIZE]; omega, hop, hphase⟩⟩
  obtain ⟨hm, hcase⟩ := blockInv_logAll cs (Sys.mk lg sd) hinit
  refine ⟨?_, ?_, ?_⟩
  · intro hfull
    rcases hcase with ⟨hlt, _, _⟩ | ⟨_, hop2⟩
    · omega
    · exact hop2
  · intro hne
    rcases hcase with ⟨_, _, hph⟩ | ⟨hfull, hop2⟩
    · exact absurd hph hne
    · exact ⟨hfull, hop2⟩
  · intro c hfalse htrue
    rcases hcase with ⟨_, hop2, _⟩ | ⟨hfull, _⟩
    · rw [hop2] at hfalse; exact absurd hfalse (by simp)
    · have hstep := log_full ((Sys.mk lg sd).logAll cs) c (by omega)
      rw [hstep] at htrue ⊢
      cases hret : (({ ((Sys.mk lg sd).logAll cs).lg with mOperational := false } :
          logger).writeBufferToFile ((Sys.mk lg sd).logAll cs).sd c.resp).1
      · have hfr := (step_false_frame _ _ _ hret).2.2
        simp only at htrue
        rw [hfr] at htrue
        exact absurd htrue (by simp)
      · exact ⟨rfl, (step_true_in_write _ _ _ hret).1⟩

set_option maxRecDepth 100000 in
/-- Instance of `blocking_discipline`: after nine appends the cursor is at the
threshold, the phase is `WRITE_FILE` and the logger is blocked; the tenth call
unblocks it with a successful write. -/
theorem blocking_discipline_witness :
    readyLogger.mOperational = true ∧ readyLogger.mArrayPosition = 0
    ∧ readyLogger.mWriteStep = writeStep.CHECK_SIZE
    ∧ ((Sys.mk readyLogger emptyCard).logAll nineCalls).lg.mArrayPosition
        = ((Sys.mk readyLogger emptyCard).logAll nineCalls).lg.mArrayMaxPosition
    ∧ ((Sys.mk readyLogger emptyCard).logAll nineCalls).lg.mOperational = false
    ∧ (((Sys.mk readyLogger emptyCard).logAll nineCalls).log tenthCall).1 = some true :=
  have h := blocking_discipline readyLogger emptyCard nineCalls rfl rfl rfl rfl
  have hfull : ((Sys.mk readyLogger emptyCard).logAll nineCalls).lg.mArrayPosition
      = ((Sys.mk readyLogger emptyCard).logAll nineCalls).lg.mArrayMaxPosition := by decide
  ⟨rfl, rfl, rfl, hfull, h.1 hfull, (h.2.2 tenthCall (h.1 hfull) (by decide)).1⟩

/-! ## The empty directory -/

/-- Claim C19: for a listing with no entries `getNextFileIndex` returns 1 and
sets the rotation index to 1, whatever the index was before and whatever an
earlier scan left (the name array starts from zero bytes in every call; a
directory that could not be opened yields no entries either); and whenever a scan
returns 1, the index it sets is the same for every prior index: it depends on the
listing only. -/
theorem getNextFileIndex_empty_listing (dir dir0 : List DirEntry) (cur cur0 : Int)
    (sd : SdFat) :
    logger.getNextFileIndex [] cur = (1, 1)
    ∧ logger.getNextFileIndex [] (logger.getNextFileIndex dir0 cur0).2 = (1, 1)
    ∧ logger.getNextFileIndex (sd.listing false) cur = (1, 1)
    ∧ ((logger.getNextFileIndex dir cur).1 = 1 →
        logger.getNextFileIndex dir cur0 = logger.getNextFileIndex dir cur) := by
  have hempty : ∀ z : Int, logger.getNextFileIndex [] z = (1, 1) := by
    intro z
    have hd : (List.replicate FILE_NAME_SIZE NUL).filter Char.isDigit = [] := by decide
    simp only [logger.getNextFileIndex, scanNames, hd]
    decide
  refine ⟨hempty cur, hempty _, by simp only [SdFat.listing]; exact hempty cur, ?_⟩
  intro h
  cases hs : scanNames dir (List.replicate FILE_NAME_SIZE NUL) with
  | none => simp [logger.getNextFileIndex, hs] at h
  | some b => simp only [logger.getNextFileIndex, hs]

/-- Instance of `getNextFileIndex_empty_listing`: the listing `7.csv` scanned at
index 3 and at index 0. -/
theorem getNextFileIndex_empty_listing_witness :
    (logger.getNextFileIndex [fileOfSize ['7', '.', 'c', 's', 'v'] 0] 3).1 = 1
    ∧ logger.getNextFileIndex [fileOfSize ['7', '.', 'c', 's', 'v'] 0] 0
        = logger.getNextFileIndex [fileOfSize ['7', '.', 'c', 's', 'v'] 0] 3
    ∧ logger.getNextFileIndex [] 3 = (1, 1) :=
  have h := getNextFileIndex_empty_listing [fileOfSize ['7', '.', 'c', 's', 'v'] 0] [] 3 0
    emptyCard
  ⟨by decide, h.2.2.2 (by decide), h.1⟩

/-! ## The record of the call that finds the buffer full -/

theorem keptFrom_append {α : Type} (a b : List α) (p : Nat) :
    keptFrom p (a ++ b) = keptFrom p a ++ keptFrom (p + a.length) b := by
  induction a generalizing p with
  | nil => simp [keptFrom]
  | cons x xs ih =>
    have e : p + (x :: xs).length = p + 1 + xs.length := by
      simp only [List.length_cons]; omega
    show keptFrom p (x :: (xs ++ b)) = keptFrom p (x :: xs) ++ keptFrom (p + (x :: xs).length) b
    rw [e]
    by_cases hp : p % ARRAY_SIZE = 0
    · simp only [keptFrom, hp, if_true, ih]
    · simp only [keptFrom, hp, if_false, ih, List.cons_append]

theorem keptFrom_mod {α : Type} (l : List α) (p q : Nat)
    (h : p % ARRAY_SIZE = q % ARRAY_SIZE) : keptFrom p l = keptFrom q l := by
  induction l generalizing p q with
  | nil => rfl
  | cons x xs ih =>
    have h2 : (p + 1) % ARRAY_SIZE = (q + 1) % ARRAY_SIZE := by
      simp only [ARRAY_SIZE] at h ⊢; omega
    simp only [keptFrom, h, ih (p + 1) (q + 1) h2]

theorem keptFrom_short {α : Type} (l : List α) (p : Nat) (hp : 1 ≤ p)
    (h : p + l.length ≤ ARRAY_SIZE) : keptFrom p l = l := by
  induction l generalizing p with
  | nil => rfl
  | cons x xs ih =>
    simp only [List.length_cons, ARRAY_SIZE] at h
    have hne : ¬ (p % ARRAY_SIZE = 0) := by simp only [ARRAY_SIZE]; omega
    simp only [keptFrom, hne, if_false]
    rw [ih (p + 1) (by omega) (by simp only [ARRAY_SIZE]; omega)]

theorem notEveryTenth_cycle {α : Type} (a : List α) (c : α) (rest : List α)
    (ha : a.length = ARRAY_SIZE - 1) :
    notEveryTenth (a ++ [c] ++ rest) = a ++ notEveryTenth rest := by
  simp only [ARRAY_SIZE] at ha
  unfold notEveryTenth
  rw [List.append_assoc, keptFrom_append, keptFrom_short a 1 (by omega) (by
    simp only [ARRAY_SIZE]; omega), ha]
  have h10 : keptFrom (1 + 9) ([c] ++ rest) = keptFrom (1 + 9 + 1) rest := by
    simp [keptFrom, ARRAY_SIZE]
  rw [h10, keptFrom_mod rest (1 + 9 + 1) 1 (by simp [ARRAY_SIZE])]

theorem storeAll_length (ls buf : List (List Char)) (p : Nat) :
    (storeAll buf p ls).length = buf.length := by
  induction ls generalizing buf p with
  | nil => rfl
  | cons l ls ih => simp [storeAll, ih]

theorem map_cstr_logStrings (cs : List Call) : (logStrings cs).map cstr = formatLines cs := by
  simp only [logStrings, formatLines, List.map_map]
  apply List.map_congr_left
  intro x _
  exact cstr_logStringOf x.now x.data

theorem fill_short (cs : List Call) (w : Sys) (hs : FillStart w)
    (hlen : cs.length ≤ ARRAY_SIZE - 1) :
    (∀ n, (w.logAll cs).sd.contentOf n = w.sd.contentOf n)
    ∧ ((w.logAll cs).lg.mBuffer.take (w.logAll cs).lg.mArrayPosition).map cstr
        = formatLines cs := by
  obtain ⟨hop, hcur, hmax, hbuf, hphase, hclosed⟩ := hs
  simp only [ARRAY_SIZE] at hmax hbuf hlen
  have htake : (storeAll w.lg.mBuffer 0 (logStrings cs)).take cs.length = logStrings cs := by
    have := take_storeAll (logStrings cs) w.lg.mBuffer 0 (by simp [logStrings, hbuf]; omega)
    simpa [logStrings] using this
  by_cases hlt : cs.length < 9
  · have h := (logAll_store cs w hop (by omega) (by omega)).1
    rw [h]
    refine ⟨fun _ => rfl, ?_⟩
    simp only [hcur, Nat.zero_add, htake, map_cstr_logStrings]
  · have h9 : cs.length = 9 := by omega
    have hne : cs ≠ [] := by
      intro hc; rw [hc] at h9; simp at h9
    have h := (logAll_fill cs w hne hop (by omega) (by omega)).1
    have hcs := writeBufferToFile_check_size
      ({ w.lg with
          mBuffer := storeAll w.lg.mBuffer w.lg.mArrayPosition (logStrings cs)
          mArrayPosition := w.lg.mArrayMaxPosition
          mOperational := false } : logger) w.sd (cs.getLast hne).resp hphase
    rw [hcs] at h
    rw [h]
    have hmaxlen : w.lg.mArrayMaxPosition = cs.length := by omega
    refine ⟨fun n => contentOf_reopen _ _ _ n, ?_⟩
    dsimp only
    rw [hcur, hmaxlen, htake, map_cstr_logStrings]

theorem fill_short_kept (cs : List Call) (w : Sys) (hs : FillStart w)
    (hlen : cs.length ≤ ARRAY_SIZE - 1) :
    (w.logAll cs).sd.contentOf w.lg.fileName
        ++ (((w.logAll cs).lg.mBuffer.take (w.logAll cs).lg.mArrayPosition).map cstr).flatten
      = w.sd.contentOf w.lg.fileName ++ (formatLines (notEveryTenth cs)).flatten := by
  obtain ⟨hc, hb⟩ := fill_short cs w hs hlen
  have hk : notEveryTenth cs = cs :=
    keptFrom_short cs 1 (by omega) (by simp only [ARRAY_SIZE] at hlen ⊢; omega)
  rw [hc, hb, hk]

theorem fill_cycle (a : List Call) (c : Call) (w : Sys) (hs : FillStart w)
    (ha : a.length = ARRAY_SIZE - 1)
    (hresp : ∀ x ∈ a ++ [c], x.resp.busy = false ∧ x.resp.openOk = true)
    (hsize : (w.sd.contentOf w.lg.fileName).length ≤ w.lg.mMaxFileSize) :
    FillStart (w.logAll (a ++ [c]))
    ∧ (w.logAll (a ++ [c])).lg.fileName = w.lg.fileName
    ∧ (w.logAll (a ++ [c])).lg.mMaxFileSize = w.lg.mMaxFileSize
    ∧ (w.logAll (a ++ [c])).sd.contentOf w.lg.fileName
        = w.sd.contentOf w.lg.fileName ++ (formatLines a).flatten := by
  obtain ⟨hop, hcur, hmax, hbuf, hphase, hclosed⟩ := hs
  simp only [ARRAY_SIZE] at hmax hbuf ha
  have hne : a ≠ [] := by
    intro h; rw [h] at ha; simp at ha
  have hA := (logAll_fill a w hne hop (by omega) (by omega)).1
  have hlast := hresp (a.getLast hne) (by simp [List.getLast_mem])
  have hc := hresp c (by simp)
  have h9 := check_size_opens
    ({ w.lg with
        mBuffer := storeAll w.lg.mBuffer w.lg.mArrayPosition (logStrings a)
        mArrayPosition := w.lg.mArrayMaxPosition
        mOperational := false } : logger) w.sd (a.getLast hne).resp hphase hclosed hlast.2
  have hfn : ({ w.lg with
        mBuffer := storeAll w.lg.mBuffer w.lg.mArrayPosition (logStrings a)
        mArrayPosition := w.lg.mArrayMaxPosition
        mOperational := false } : logger).fileName = w.lg.fileName := rfl
  rw [hfn] at h9
  simp only [if_neg (Nat.not_lt.mpr hsize)] at h9
  rw [h9] at hA
  dsimp only at hA
  have h10 := log_full (w.logAll a) c (by rw [hA])
  rw [hA] at h10
  dsimp only at h10
  have hw := write_open_effect
    ({ w.lg with
        mBuffer := storeAll w.lg.mBuffer w.lg.mArrayPosition (logStrings a)
        mArrayPosition := w.lg.mArrayMaxPosition
        mOperational := false
        mFile := some w.lg.fileName
        mWriteStep := writeStep.WRITE_FILE } : logger)
    (w.sd.openFile true w.lg.fileName).2 c.resp w.lg.fileName rfl hc.1 rfl
    (hasEntry_openFile w.sd w.lg.fileName)
  have hpost := writeBufferToFile_true
    ({ w.lg with
        mBuffer := storeAll w.lg.mBuffer w.lg.mArrayPosition (logStrings a)
        mArrayPosition := w.lg.mArrayMaxPosition
        mOperational := false
        mFile := some w.lg.fileName
        mWriteStep := writeStep.WRITE_FILE } : logger)
    (w.sd.openFile true w.lg.fileName).2 c.resp hw.1
  have htake : (storeAll w.lg.mBuffer w.lg.mArrayPosition (logStrings a)).take
      w.lg.mArrayMaxPosition = logStrings a := by
    have := take_storeAll (logStrings a) w.lg.mBuffer 0 (by simp [logStrings, hbuf, ha])
    simpa [logStrings, ha, hmax, hcur] using this
  have hall : w.logAll (a ++ [c]) = ((w.logAll a).log c).2 := by
    rw [logAll_append]; rfl
  rw [hall, hA, h10]
  simp only [htake, map_cstr_logStrings, contentOf_openFile] at hw
  refine ⟨⟨congrArg (fun l => l.mOperational) hpost, congrArg (fun l => l.mArrayPosition) hpost,
    (congrArg (fun l => l.mArrayMaxPosition) hpost).trans hmax,
    (congrArg (fun l => l.mBuffer.length) hpost).trans
      ((storeAll_length _ _ _).trans hbuf),
    congrArg (fun l => l.mWriteStep) hpost, congrArg (fun l => l.mFile) hpost⟩,
    congrArg (fun l => l.fileName) hpost, congrArg (fun l => l.mMaxFileSize) hpost, hw.2.1⟩

theorem fill_cycles (n : Nat) :
    ∀ (cs : List Call) (w : Sys), cs.length ≤ n → FillStart w →
      (∀ x ∈ cs, x.resp.busy = false ∧ x.resp.openOk = true) →
      (w.sd.contentOf w.lg.fileName).length
          + ((formatLines (notEveryTenth cs)).flatten).length ≤ w.lg.mMaxFileSize →
      (w.logAll cs).sd.contentOf w.lg.fileName
          ++ (((w.logAll cs).lg.mBuffer.take (w.logAll cs).lg.mArrayPosition).map cstr).flatten
        = w.sd.contentOf w.lg.fileName ++ (formatLines (notEveryTenth cs)).flatten := by
  induction n with
  | zero =>
    intro cs w hlen hs _ _
    exact fill_short_kept cs w hs (by simp only [ARRAY_SIZE]; omega)
  | succ n ih =>
    intro cs w hlen hs hresp hsize
    by_cases hshort : cs.length ≤ ARRAY_SIZE - 1
    · exact fill_short_kept cs w hs hshort
    · simp only [ARRAY_SIZE] at hshort
      have hsplit : cs = cs.take 9 ++ cs.drop 9 := (List.take_append_drop 9 cs).symm
      have hta : (cs.take 9).length = 9 := by
        rw [List.length_take]; omega
      cases hd : cs.drop 9 with
      | nil =>
        have := congrArg List.length hd
        simp only [List.length_drop, List.length_nil] at this
        omega
      | cons c rest =>
        have hcs : cs = cs.take 9 ++ [c] ++ rest := by
          rw [List.append_assoc, List.singleton_append, ← hd]; exact hsplit
        have hrest : rest.length ≤ n := by
          have := congrArg List.length hd
          simp only [List.length_drop, List.length_cons] at this
          omega
        have hkept : notEveryTenth cs = cs.take 9 ++ notEveryTenth rest := by
          conv_lhs => rw [hcs]
          exact notEveryTenth_cycle (cs.take 9) c rest hta
        have hresp1 : ∀ x ∈ cs.take 9 ++ [c], x.resp.busy = false ∧ x.resp.openOk = true := by
          intro x hx
          apply hresp x
          rw [hcs]
          exact List.mem_append_left _ hx
        have hresp2 : ∀ x ∈ rest, x.resp.busy = false ∧ x.resp.openOk = true := by
          intro x hx
          apply hresp x
          rw [hcs]
          exact List.mem_append_right _ hx
        have hlines : (formatLines (notEveryTenth cs)).flatten
            = (formatLines (cs.take 9)).flatten ++ (formatLines (notEveryTenth rest)).flatten := by
          rw [hkept]
          simp [formatLines]
        rw [hlines, List.length_append] at hsize
        obtain ⟨hs1, hf1, hm1, hc1⟩ := fill_cycle (cs.take 9) c w hs hta hresp1 (by omega)
        have hrun : w.logAll cs = (w.logAll (cs.take 9 ++ [c])).logAll rest := by
          conv_lhs => rw [hcs]
          exact logAll_append w _ rest
        have hih := ih rest (w.logAll (cs.take 9 ++ [c])) hrest hs1 hresp2 (by
          rw [hf1, hm1, hc1, List.length_append]; omega)
        rw [hf1, hc1] at hih
        rw [hrun, hih, hlines, List.append_assoc]

/-- Claim C20: a `logData` call made with the cursor at the full threshold only
steps the flush machine: its outcome does not depend on its payload or time
stamp and the slots keep their content, also when its `WRITE_FILE` step succeeds.
Hence, from an operational logger with an empty buffer, phase `CHECK_SIZE` and a
closed handle, on a card that is never busy and opens the file, with a target
file that stays within the ceiling: after any run of `logData` calls, what the
file has gained followed by what the buffer holds is exactly the formatted lines
of the records whose 1-based position is not a multiple of `ARRAY_SIZE`, in
order. -/
theorem every_tenth_record_dropped (lg : logger) (sd : SdFat) (cs : List Call)
    (hop : lg.mOperational = true) (hcur : lg.mArrayPosition = 0)
    (hmax : lg.mArrayMaxPosition = ARRAY_SIZE - 1) (hlen : lg.mBuffer.length = ARRAY_SIZE)
    (hphase : lg.mWriteStep = writeStep.CHECK_SIZE) (hclosed : lg.mFile = none)
    (hresp : ∀ x ∈ cs, x.resp.busy = false ∧ x.resp.openOk = true)
    (hsize : (sd.contentOf lg.fileName).length
        + ((formatLines (notEveryTenth cs)).flatten).length ≤ lg.mMaxFileSize) :
    (∀ (w : Sys) (c c2 : Call), w.lg.mArrayMaxPosition ≤ w.lg.mArrayPosition →
        c.resp = c2.resp →
        w.log c = w.log c2 ∧ (w.log c).2.lg.mBuffer = w.lg.mBuffer)
    ∧ ((Sys.mk lg sd).logAll cs).sd.contentOf lg.fileName
        ++ ((((Sys.mk lg sd).logAll cs).lg.mBuffer.take
              ((Sys.mk lg sd).logAll cs).lg.mArrayPosition).map cstr).flatten
      = sd.contentOf lg.fileName ++ (formatLines (notEveryTenth cs)).flatten := by
  constructor
  · intro w c c2 hfull hr
    rw [log_full w c hfull, log_full w c2 hfull, hr]
    exact ⟨rfl, (flush_frame _ _ _).1⟩
  · exact fill_cycles cs.length cs (Sys.mk lg sd) (Nat.le_refl _)
      ⟨hop, hcur, hmax, hlen, hphase, hclosed⟩ hresp hsize

set_option maxRecDepth 100000 in
/-- Instance of `every_tenth_record_dropped`: ten calls on a fresh card; the
tenth record `j` is neither in the file nor in the buffer. -/
theorem every_tenth_record_dropped_witness :
    readyLogger.mOperational = true ∧ readyLogger.mArrayPosition = 0
    ∧ readyLogger.mFile = none
    ∧ notEveryTenth (nineCalls ++ [tenthCall]) = nineCalls
    ∧ ((Sys.mk readyLogger emptyCard).logAll (nineCalls ++ [tenthCall])).sd.contentOf
          readyLogger.fileName
        ++ ((((Sys.mk readyLogger emptyCard).logAll (nineCalls ++ [tenthCall])).lg.mBuffer.take
              ((Sys.mk readyLogger emptyCard).logAll
                (nineCalls ++ [tenthCall])).lg.mArrayPosition).map cstr).flatten
      = emptyCard.contentOf readyLogger.fileName
          ++ (formatLines (notEveryTenth (nineCalls ++ [tenthCall]))).flatten :=
  have h := every_tenth_record_dropped readyLogger emptyCard (nineCalls ++ [tenthCall]) rfl rfl
    rfl rfl rfl rfl (by decide) (by decide)
  ⟨rfl, rfl, rfl, by decide, h.2⟩
